import Mathlib

/-!
# Verification of the add2wallet barcode and pass-generation pipeline

Shallow embedding of the barcode candidate detection / prioritization /
consolidation pipeline (`app/services/barcode_extractor.py`,
`app/services/v2/barcode_pipeline.py`) and the pass assembly / validation /
signing pipeline (`app/services/v2/models.py`, `pass_builder.py`,
`pass_validator.py`, `pass_signer.py`, `pass_generator.py`), together with
theorems checking the specification's claims about them.

Conventions used throughout:
* Python `dict` records become Lean structures with the same field names
  where possible.
* Byte strings become `List (Fin 256)`; text is handled on `List Char`
  (Python `str` is a sequence of code points, as is `String.data`).
* Python's `sorted`/`list.sort` (a stable sort) is modelled by `pysort`,
  a stable insertion sort; stability means the two agree extensionally.
* External libraries (pyzbar decoding, PDF rasterization, hashing, PKCS#7
  signing, `dateutil` parsing, `uuid`) are modelled as function parameters
  or pre-parsed inputs: the repository code treats them as black boxes.
-/

namespace Add2Wallet

/-! ## Stable sort: Python's `sorted` / `list.sort` -/

/-- Insert `a` into `l`, placing it before the first element `b` with
`le a b`.  Elements equal to `a` under `le` that are already in `l` stay in
front of `a`, which is exactly Python's stability guarantee when `a` comes
later in the input. -/
def insertS (le : α → α → Bool) (a : α) : List α → List α
  | [] => [a]
  | b :: l => if le a b then a :: b :: l else b :: insertS le a l

/-- Stable sort with comparator `le`; extensionally equal to Python's
`sorted(l, key=...)` when `le` is the key comparison, since a stable sort
is uniquely determined by the comparator. -/
def pysort (le : α → α → Bool) : List α → List α
  | [] => []
  | a :: l => insertS le a (pysort le l)

theorem insertS_perm (le : α → α → Bool) (a : α) (l : List α) :
    (insertS le a l).Perm (a :: l) := by
  induction l with
  | nil => simp [insertS]
  | cons b t ih =>
    simp only [insertS]
    by_cases h : le a b
    · rw [if_pos h]
    · rw [if_neg h]
      exact (ih.cons b).trans (List.Perm.swap a b t)

theorem pysort_perm (le : α → α → Bool) (l : List α) : (pysort le l).Perm l := by
  induction l with
  | nil => simp [pysort]
  | cons a t ih =>
    simpa [pysort] using (insertS_perm le a (pysort le t)).trans (ih.cons a)

theorem mem_pysort {le : α → α → Bool} {l : List α} {x : α} :
    x ∈ pysort le l ↔ x ∈ l :=
  (pysort_perm le l).mem_iff

theorem length_pysort (le : α → α → Bool) (l : List α) :
    (pysort le l).length = l.length :=
  (pysort_perm le l).length_eq

theorem pairwise_insertS {le : α → α → Bool}
    (trans : ∀ a b c, le a b → le b c → le a c)
    (total : ∀ a b, le a b || le b a) (a : α) {l : List α}
    (h : l.Pairwise (fun x y => le x y = true)) :
    (insertS le a l).Pairwise (fun x y => le x y = true) := by
  induction l with
  | nil => simp [insertS]
  | cons b t ih =>
    simp only [insertS]
    rcases List.pairwise_cons.mp h with ⟨hb, ht⟩
    by_cases hab : le a b
    · simp only [if_pos hab]
      refine List.pairwise_cons.mpr ⟨?_, h⟩
      intro x hx
      rcases List.mem_cons.mp hx with rfl | hx
      · exact hab
      · exact trans a b x hab (hb x hx)
    · simp only [if_neg hab]
      refine List.pairwise_cons.mpr ⟨?_, ih ht⟩
      intro x hx
      rcases List.mem_cons.mp ((insertS_perm le a t).mem_iff.mp hx) with hxa | hx
      · rw [hxa]
        have h1 := total a b
        rw [Bool.or_eq_true] at h1
        rcases h1 with h1 | h1
        · exact absurd h1 hab
        · exact h1
      · exact hb x hx

theorem pysort_sorted {le : α → α → Bool}
    (trans : ∀ a b c, le a b → le b c → le a c)
    (total : ∀ a b, le a b || le b a) (l : List α) :
    (pysort le l).Pairwise (fun x y => le x y = true) := by
  induction l with
  | nil => simp [pysort]
  | cons a t ih => exact pairwise_insertS trans total a ih

theorem find?_congr {p q : α → Bool} {l : List α} (h : ∀ x ∈ l, p x = q x) :
    l.find? p = l.find? q := by
  induction l with
  | nil => rfl
  | cons a t ih =>
    have ha := h a (by simp)
    by_cases hp : p a
    · rw [List.find?_cons_of_pos _ hp, List.find?_cons_of_pos _ (ha ▸ hp)]
    · rw [List.find?_cons_of_neg _ hp,
        List.find?_cons_of_neg _ (by rw [← ha]; exact hp)]
      exact ih fun x hx => h x (by simp [hx])

/-- The head of a stable sort is the first element of the input that is
maximal under the comparator: ties on the comparator are broken by input
position, never by anything else. -/
theorem pysort_head {le : α → α → Bool}
    (trans : ∀ a b c, le a b → le b c → le a c)
    (total : ∀ a b, le a b || le b a) (l : List α) :
    (pysort le l).head? = l.find? (fun b => l.all (fun x => le b x)) := by
  have refl : ∀ a, le a a = true := by
    intro a
    have h := total a a
    rw [Bool.or_eq_true] at h
    rcases h with h | h <;> exact h
  induction l with
  | nil => rfl
  | cons a t ih =>
    simp only [pysort]
    rcases ht : pysort le t with _ | ⟨m, r⟩
    · have : t = [] := by
        have := pysort_perm le t
        rw [ht] at this
        exact this.symm.eq_nil
      subst this
      simp [insertS, List.find?, refl a]
    · have hmem : m ∈ t := by
        have : m ∈ pysort le t := by rw [ht]; simp
        exact mem_pysort.mp this
      have hfind : t.find? (fun b => t.all (fun x => le b x)) = some m := by
        rw [← ih, ht]
        rfl
      have hmax := List.find?_some hfind
      have hmax' : ∀ x ∈ t, le m x := by
        intro x hx
        exact List.all_eq_true.mp hmax x hx
      by_cases ham : le a m
      · have hpred : ((a :: t).all (fun x => le a x)) = true := by
          simp only [List.all_cons, Bool.and_eq_true]
          exact ⟨refl a, List.all_eq_true.mpr fun x hx =>
            trans a m x ham (hmax' x hx)⟩
        have hfa : List.find? (fun b => (a :: t).all (fun x => le b x))
            (a :: t) = some a := by
          apply List.find?_cons_of_pos
          exact hpred
        rw [hfa]
        simp [insertS, ham]
      · have hma : le m a := by
          have h := total a m
          rw [Bool.or_eq_true] at h
          rcases h with h | h
          · exact absurd h ham
          · exact h
        have hpred : ((a :: t).all (fun x => le a x)) = false := by
          simp only [List.all_cons, List.all_eq_true, Bool.and_eq_true]
          simp only [Bool.and_eq_false_iff]
          right
          rw [List.all_eq_false]
          exact ⟨m, hmem, by simp [ham]⟩
        have hfn : List.find? (fun b => (a :: t).all (fun x => le b x))
            (a :: t) = List.find? (fun b => (a :: t).all (fun x => le b x)) t := by
          apply List.find?_cons_of_neg
          simp [hpred]
        rw [hfn]
        have hcongr : t.find? (fun b => (a :: t).all (fun x => le b x)) =
            t.find? (fun b => t.all (fun x => le b x)) := by
          apply find?_congr
          intro x hx
          simp only [List.all_cons]
          rcases hall : t.all (fun y => le x y) with _ | _
          · simp
          · have hxa : le x a :=
              trans x m a (List.all_eq_true.mp hall m hmem) hma
            simp [hxa]
        rw [hcongr, hfind]
        simp [insertS, ham]

/-! ## First-occurrence key order (Python `dict` key insertion order) -/

/-- Accumulating loop collecting keys in order of first occurrence, exactly
the key order a Python `dict` built by repeated `setdefault` ends up with. -/
def firstKeysAux [DecidableEq α] (acc : List α) : List α → List α
  | [] => acc
  | k :: rest => firstKeysAux (if k ∈ acc then acc else acc ++ [k]) rest

/-- Keys of a list in order of first occurrence, without duplicates. -/
def firstKeys [DecidableEq α] (l : List α) : List α := firstKeysAux [] l

theorem firstKeysAux_mem [DecidableEq α] {x : α} :
    ∀ {l acc : List α}, x ∈ firstKeysAux acc l ↔ x ∈ acc ∨ x ∈ l := by
  intro l
  induction l with
  | nil => intro acc; simp [firstKeysAux]
  | cons k rest ih =>
    intro acc
    simp only [firstKeysAux]
    by_cases hk : k ∈ acc
    · rw [if_pos hk, ih]
      constructor
      · rintro (h | h)
        · exact Or.inl h
        · exact Or.inr (by simp [h])
      · rintro (h | h)
        · exact Or.inl h
        · rcases List.mem_cons.mp h with rfl | h
          · exact Or.inl hk
          · exact Or.inr h
    · rw [if_neg hk, ih]
      simp only [List.mem_append, List.mem_singleton, List.mem_cons]
      tauto

theorem firstKeys_mem [DecidableEq α] {x : α} {l : List α} :
    x ∈ firstKeys l ↔ x ∈ l := by
  rw [firstKeys, firstKeysAux_mem]
  simp

theorem firstKeysAux_nodup [DecidableEq α] :
    ∀ {l acc : List α}, acc.Nodup → (firstKeysAux acc l).Nodup := by
  intro l
  induction l with
  | nil => intro acc h; simpa [firstKeysAux] using h
  | cons k rest ih =>
    intro acc h
    simp only [firstKeysAux]
    by_cases hk : k ∈ acc
    · rw [if_pos hk]; exact ih h
    · rw [if_neg hk]
      exact ih (by simp [List.nodup_append, h, hk])

theorem firstKeys_nodup [DecidableEq α] (l : List α) : (firstKeys l).Nodup :=
  firstKeysAux_nodup List.nodup_nil

/-! ## Bytes, hex keys and latin-1 text -/

/-- One lowercase hex digit, as produced by Python `bytes.hex()`. -/
def hexDigit (n : Nat) : Char :=
  if n < 10 then Char.ofNat (48 + n) else Char.ofNat (87 + n)

/-- Python `bytes.hex()`: two lowercase hex digits per byte. -/
def hexOfBytes : List (Fin 256) → List Char
  | [] => []
  | b :: bs => hexDigit (b.val / 16) :: hexDigit (b.val % 16) :: hexOfBytes bs

theorem hexDigit_inj : ∀ m, m < 16 → ∀ n, n < 16 → hexDigit m = hexDigit n → m = n := by
  decide

theorem hexOfBytes_inj : ∀ {xs ys : List (Fin 256)},
    hexOfBytes xs = hexOfBytes ys → xs = ys := by
  intro xs
  induction xs with
  | nil => intro ys h; cases ys with
    | nil => rfl
    | cons y ys => simp [hexOfBytes] at h
  | cons x xs ih =>
    intro ys h
    cases ys with
    | nil => simp [hexOfBytes] at h
    | cons y ys =>
      simp only [hexOfBytes, List.cons.injEq] at h
      rcases h with ⟨h1, h2, h3⟩
      have hx16 : x.val / 16 < 16 := Nat.div_lt_of_lt_mul (by omega)
      have hy16 : y.val / 16 < 16 := Nat.div_lt_of_lt_mul (by omega)
      have e1 : x.val / 16 = y.val / 16 := hexDigit_inj _ hx16 _ hy16 h1
      have e2 : x.val % 16 = y.val % 16 :=
        hexDigit_inj _ (Nat.mod_lt _ (by omega)) _ (Nat.mod_lt _ (by omega)) h2
      have : x.val = y.val := by
        have hx := Nat.div_add_mod x.val 16
        have hy := Nat.div_add_mod y.val 16
        omega
      rw [Fin.ext this, ih h3]

/-- Python `bytes.decode("latin-1")`: byte `n` becomes code point `n`.
Total on all byte values. -/
def latin1OfBytes (bs : List (Fin 256)) : List Char :=
  bs.map (fun b => Char.ofNat b.val)

/-! ## Character and substring helpers (Python `str` operations) -/

/-- Python `in` on strings: contiguous substring test. -/
def isSubstr (needle hay : List Char) : Bool :=
  hay.tails.any (fun t => needle.isPrefixOf t)

/-- Python `str.lower()` (the repository only ever lowercases ASCII hint words
and filenames, where `Char.toLower` agrees with Python). -/
def lowerStr (s : String) : String := String.mk (s.data.map Char.toLower)

/-- Python `str.upper()` on ASCII text. -/
def upperStr (s : String) : String := String.mk (s.data.map Char.toUpper)

/-- Python `str.isspace` / `\s` class: space, tab, LF, CR, VT, FF. -/
def isPySpace (c : Char) : Bool :=
  c = ' ' || c = '\t' || c = '\n' || c = '\r' || c = '\x0b' || c = '\x0c'

/-- Python `[0-9a-fA-F]`. -/
def isHexChar (c : Char) : Bool :=
  c.isDigit || ('a' ≤ c && c ≤ 'f') || ('A' ≤ c && c ≤ 'F')

namespace BarcodeExtractor

/-- One detected barcode candidate: the dict built in
`BarcodeExtractor.decode_with_formats` plus the `page`/`method`/`source`/
`dpi` keys added in `_try_formats`.  `bytes_b64` (a base64 mirror of
`raw_bytes`) and `bbox` (whose only downstream uses are the derived `area`
and `center_distance`) are not carried separately.  The real
`center_distance` is a float distance; only its ordering is ever used, so
it is modelled as a rational. -/
structure RawBC where
  data : String
  btype : String
  format : String
  encoding : String
  raw_bytes : Option (List (Fin 256))
  confidence : Nat
  area : Nat
  center_distance : ℚ
  page : Nat
  method : String
  src : String
  dpi : Nat
deriving DecidableEq

/-- Embeds `BarcodeExtractor.format_groups`: ordered groups for detection
(`AZTEC` first, then `QRCODE`, then every remaining symbology as one
group). -/
def format_groups : List (List String) :=
  [["AZTEC"],
   ["QRCODE"],
   ["CODE128", "CODE39", "CODE93", "EAN8", "EAN13", "UPC_A", "UPC_E",
    "CODABAR", "ITF", "PDF417", "DATAMATRIX"]]

/-- The sort key of `_choose_best_barcodes`:
`(-confidence, -area, center_distance)` compared lexicographically, i.e.
highest confidence first, then largest area, then smallest distance. -/
def keyLe (a b : RawBC) : Bool :=
  if a.confidence = b.confidence then
    if a.area = b.area then decide (a.center_distance ≤ b.center_distance)
    else decide (b.area < a.area)
  else decide (b.confidence < a.confidence)

theorem keyLe_iff (a b : RawBC) : keyLe a b = true ↔
    b.confidence < a.confidence ∨
      (a.confidence = b.confidence ∧
        (b.area < a.area ∨
          (a.area = b.area ∧ a.center_distance ≤ b.center_distance))) := by
  unfold keyLe
  by_cases h1 : a.confidence = b.confidence
  · by_cases h2 : a.area = b.area
    · rw [if_pos h1, if_pos h2]
      simp only [decide_eq_true_eq]
      constructor
      · intro h; exact Or.inr ⟨h1, Or.inr ⟨h2, h⟩⟩
      · rintro (h | ⟨h3, h | ⟨h4, h⟩⟩)
        · omega
        · omega
        · exact h
    · rw [if_pos h1, if_neg h2]
      simp only [decide_eq_true_eq]
      constructor
      · intro h; exact Or.inr ⟨h1, Or.inl h⟩
      · rintro (h | ⟨h3, h | ⟨h4, h⟩⟩)
        · omega
        · exact h
        · omega
  · rw [if_neg h1]
    simp only [decide_eq_true_eq]
    constructor
    · intro h; exact Or.inl h
    · rintro (h | ⟨h3, h | ⟨h4, h⟩⟩)
      · exact h
      · omega
      · omega

theorem keyLe_total : ∀ a b, keyLe a b || keyLe b a := by
  intro a b
  rw [Bool.or_eq_true, keyLe_iff, keyLe_iff]
  rcases lt_trichotomy a.confidence b.confidence with h | h | h
  · right; left; exact h
  · rcases lt_trichotomy a.area b.area with h2 | h2 | h2
    · right; right; exact ⟨h.symm, Or.inl h2⟩
    · rcases le_total a.center_distance b.center_distance with h3 | h3
      · left; right; exact ⟨h, Or.inr ⟨h2, h3⟩⟩
      · right; right; exact ⟨h.symm, Or.inr ⟨h2.symm, h3⟩⟩
    · left; right; exact ⟨h, Or.inl h2⟩
  · left; left; exact h

theorem keyLe_trans : ∀ a b c, keyLe a b → keyLe b c → keyLe a c := by
  intro a b c hab hbc
  rw [keyLe_iff] at *
  rcases hab with h | ⟨e1, hab2⟩
  · rcases hbc with h2 | ⟨e2, h3⟩
    · left; omega
    · left; omega
  · rcases hbc with h2 | ⟨e2, hbc2⟩
    · left; omega
    · right
      refine ⟨e1.trans e2, ?_⟩
      rcases hab2 with h3 | ⟨e3, h3⟩
      · rcases hbc2 with h4 | ⟨e4, h4⟩
        · left; omega
        · left; omega
      · rcases hbc2 with h4 | ⟨e4, h4⟩
        · left; omega
        · right; exact ⟨e3.trans e4, le_trans h3 h4⟩

/-- Embeds `BarcodeExtractor._choose_best_barcodes`: sort by
`(-confidence, -area, center_distance)` and keep only the best candidate
(the sort is Python's stable `sorted`). -/
def choose_best (barcodes : List RawBC) : List RawBC :=
  match barcodes with
  | [] => []
  | [b] => [b]
  | _ =>
    match pysort keyLe barcodes with
    | [] => []
    | best :: _ => [best]

/-- The `page`/`method`/`source`/`dpi` annotation loop at the start of the
successful branch of `_try_formats`. -/
def annotate (page : Nat) (method : String) (bc : RawBC) : RawBC :=
  { bc with
    page := page
    method := method
    src := if isSubstr "pymupdf".data method.data then "embedded-image"
           else "rasterized-page"
    dpi := if isSubstr "enhanced".data method.data then 300 else 150 }

/-- Embeds `BarcodeExtractor._try_formats`, instrumented to also return the list
of format groups for which `decode_with_formats` was invoked.  The decoder
(pyzbar on a concrete image) is a parameter `decode`. -/
def try_formats_trace (decode : List String → List RawBC) (page : Nat)
    (method : String) : List (List String) → List (List String) × List RawBC
  | [] => ([], [])
  | g :: rest =>
    match decode g with
    | [] =>
      let r := try_formats_trace decode page method rest
      (g :: r.1, r.2)
    | bs => ([g], choose_best (bs.map (annotate page method)))

/-- Embeds `BarcodeExtractor._try_formats`: try format groups in order, return the
selected candidates of the first group that yields any. -/
def try_formats (decode : List String → List RawBC) (page : Nat)
    (method : String) (groups : List (List String)) : List RawBC :=
  (try_formats_trace decode page method groups).2

/-- The filename hint words of `_handle_mixed_aztec_qr`. -/
def aztec_hints : List String := ["aztec", "billet", "ticket", "pass", "code"]

/-- Python `any(hint in filename_lower for hint in aztec_hints)`. -/
def has_aztec_hint (filename : String) : Bool :=
  aztec_hints.any (fun h => isSubstr h.data (lowerStr filename).data)

/-- Python `max(codes, key=lambda x: x.get('area', 0))`: the first
candidate with maximal area. -/
def max_by_area (b : RawBC) (bs : List RawBC) : RawBC :=
  bs.foldl (fun cur x => if cur.area < x.area then x else cur) b

/-- Embeds `BarcodeExtractor._handle_mixed_aztec_qr`: when both Aztec and QR
candidates are present, prefer Aztec on a filename hint, otherwise prefer
the symbology with the larger best area (Aztec on ties). -/
def handle_mixed_aztec_qr (all_barcodes : List RawBC) (filename : String) :
    List RawBC :=
  match all_barcodes with
  | [] => []
  | _ =>
    let aztec_codes := all_barcodes.filter (fun bc => bc.btype == "AZTEC")
    let qr_codes := all_barcodes.filter (fun bc => bc.btype == "QRCODE")
    let others := all_barcodes.filter
      (fun bc => bc.btype != "AZTEC" && bc.btype != "QRCODE")
    match aztec_codes, qr_codes with
    | a0 :: arest, q0 :: qrest =>
      if has_aztec_hint filename then aztec_codes ++ others
      else
        let best_aztec := max_by_area a0 arest
        let best_qr := max_by_area q0 qrest
        if best_qr.area ≤ best_aztec.area then aztec_codes ++ others
        else qr_codes ++ others
    | _, _ => all_barcodes

/-- The grouping key of `_deduplicate_barcodes`: `raw_bytes.hex()` when raw
bytes are present, else `str(data)`. -/
def payloadKey (bc : RawBC) : String :=
  match bc.raw_bytes with
  | some bs => String.mk (hexOfBytes bs)
  | none => bc.data

/-- The consolidated record `_deduplicate_barcodes` produces per payload
group: the highest-confidence member of the group (`base`) plus the
aggregate keys the function writes into that dict.  `methods_used` is
Python's `list(set(...))`, whose enumeration order is unspecified; it is
modelled in first-occurrence order. -/
structure ConsolidatedBC where
  base : RawBC
  detection_count : Nat
  methods_used : List String
  pages_found : List Nat
deriving DecidableEq

/-- Python `group.sort(key=lambda x: x.get('confidence', 0), reverse=True)`:
stable descending sort by confidence. -/
def confDesc (a b : RawBC) : Bool := decide (b.confidence ≤ a.confidence)

/-- The per-group body of `_deduplicate_barcodes`. -/
def consolidate_group (g : List RawBC) : Option ConsolidatedBC :=
  match pysort confDesc g with
  | [] => none
  | best :: _ =>
    some { base := best
           detection_count := g.length
           methods_used := firstKeys (g.map (fun bc => bc.method))
           pages_found :=
             pysort (fun a b => decide (a ≤ b))
               (firstKeys (g.map (fun bc => bc.page))) }

/-- Python `result.sort(key=lambda x: x.get('confidence', 0), reverse=True)` on
consolidated records. -/
def recordConfDesc (a b : ConsolidatedBC) : Bool :=
  decide (b.base.confidence ≤ a.base.confidence)

/-- Embeds `BarcodeExtractor._deduplicate_barcodes`: group candidates by exact
payload key (dict insertion order = first occurrence), collapse each group
to one record keeping the highest-confidence member, then sort records by
descending confidence. -/
def deduplicate_barcodes (barcodes : List RawBC) : List ConsolidatedBC :=
  match barcodes with
  | [] => []
  | _ =>
    let keys := firstKeys (barcodes.map payloadKey)
    let recs := keys.filterMap
      (fun k => consolidate_group
        (barcodes.filter (fun bc => payloadKey bc == k)))
    pysort recordConfDesc recs

end BarcodeExtractor


namespace Pipeline

open BarcodeExtractor

/-- Embeds `app.services.v2.models.BARCODE_FORMAT_MAP`. -/
def BARCODE_FORMAT_MAP : List (String × String) :=
  [("QRCODE", "PKBarcodeFormatQR"),
   ("CODE128", "PKBarcodeFormatCode128"),
   ("PDF417", "PKBarcodeFormatPDF417"),
   ("AZTEC", "PKBarcodeFormatAztec"),
   ("CODE39", "PKBarcodeFormatCode128"),
   ("CODE93", "PKBarcodeFormatCode128"),
   ("EAN13", "PKBarcodeFormatCode128"),
   ("EAN8", "PKBarcodeFormatCode128"),
   ("UPC_A", "PKBarcodeFormatCode128"),
   ("UPC_E", "PKBarcodeFormatCode128"),
   ("CODABAR", "PKBarcodeFormatCode128"),
   ("ITF", "PKBarcodeFormatCode128")]

/-- Embeds `app.services.v2.models.UNSUPPORTED_FORMATS`. -/
def UNSUPPORTED_FORMATS : List String := ["DATAMATRIX"]

/-- The warning emitted for unsupported (Data Matrix) candidates in
`barcode_pipeline.extract_barcodes`. -/
def DATA_MATRIX_WARNING : String :=
  "This PDF contains a Data Matrix code, which is not supported by Apple Wallet. The pass has been saved without a barcode."

/-- Python `dict.get(key, default)` on an association list. -/
def mapGetD (m : List (String × String)) (k d : String) : String :=
  ((m.find? (fun p => p.1 == k)).map Prod.snd).getD d

/-- Embeds `app.services.v2.models.ExtractedBarcode`. -/
structure ExtractedBarcode where
  pk_format : String
  message : String
  message_encoding : String
  raw_bytes : Option (List (Fin 256))
  source_type : String
  confidence : Nat
  warning : Option String
deriving DecidableEq

/-- The sort key `(bc.get("page") or 0, -_area(bc))` of
`extract_barcodes`.  `_area` reads `bc.get("position")`, a key the v1
extractor never writes, so the area term is constantly `0` and the sort is
a stable sort by page. -/
def pageLe (a b : RawBC) : Bool := decide (a.page ≤ b.page)

/-- Python `str.replace("\r\n", "\n")`. -/
def replaceCRLF : List Char → List Char
  | [] => []
  | '\x0d' :: '\x0a' :: rest => '\x0a' :: replaceCRLF rest
  | c :: rest => c :: replaceCRLF rest

/-- Python `str.strip("\n")`. -/
def stripNL (l : List Char) : List Char :=
  ((l.dropWhile (fun c => c = '\x0a')).reverse.dropWhile
    (fun c => c = '\x0a')).reverse

/-- The body of the `for bc in raw_barcodes` loop of
`barcode_pipeline.extract_barcodes`, folded over
`(extracted, warnings)`. -/
def extractStep (acc : List ExtractedBarcode × List String) (bc : RawBC) :
    List ExtractedBarcode × List String :=
  let source_type := upperStr bc.btype
  if source_type ∈ UNSUPPORTED_FORMATS then
    (acc.1,
     if DATA_MATRIX_WARNING ∈ acc.2 then acc.2
     else acc.2 ++ [DATA_MATRIX_WARNING])
  else
    let pk_format := mapGetD BARCODE_FORMAT_MAP source_type "PKBarcodeFormatQR"
    let message :=
      match bc.raw_bytes with
      | some bs => String.mk (latin1OfBytes bs)
      | none => String.mk (stripNL (replaceCRLF bc.data.data))
    if message = "" then acc
    else
      (acc.1 ++ [{ pk_format := pk_format
                   message := message
                   message_encoding := "iso-8859-1"
                   raw_bytes := bc.raw_bytes
                   source_type := source_type
                   confidence := bc.confidence
                   warning := none }],
       acc.2)

/-- Embeds `app.services.v2.barcode_pipeline.extract_barcodes`, applied to the raw
candidate list already returned by the v1 extractor (rasterization and
decoding are upstream). -/
def extract_barcodes (raw : List RawBC) :
    List ExtractedBarcode × List String :=
  (pysort pageLe raw).foldl extractStep ([], [])

end Pipeline

/-- Strip characters satisfying `p` from both ends (Python `str.strip`). -/
def stripEnds (p : Char → Bool) (l : List Char) : List Char :=
  ((l.dropWhile p).reverse.dropWhile p).reverse

/-- Python `s[:n]` on a Python string. -/
def takeStr (n : Nat) (s : String) : String := String.mk (s.data.take n)

namespace Models

/-- Embeds `app.services.v2.models.PassField`.  The display-hint attributes
(`isRelative`, `ignoresTimeZone`, `currencyCode`, `numberStyle`,
`attributedValue`) are omitted: nothing in the pipeline or validator reads
them. -/
structure PassField where
  key : String
  label : String := ""
  value : String
  changeMessage : Option String := none
  textAlignment : Option String := none
  dateStyle : Option String := none
  timeStyle : Option String := none
deriving DecidableEq

/-- Embeds `app.services.v2.models.PassStructure`. -/
structure PassStructure where
  headerFields : List PassField := []
  primaryFields : List PassField := []
  secondaryFields : List PassField := []
  auxiliaryFields : List PassField := []
  backFields : List PassField := []
  transitType : Option String := none
deriving DecidableEq

/-- Embeds `app.services.v2.models.PKBarcode`.  The pydantic `Literal` constraint
on `format` is modelled as a plain string; `validate_pass` re-checks it
against the supported set. -/
structure PKBarcode where
  format : String
  message : String
  messageEncoding : String := "iso-8859-1"
  altText : Option String := none
deriving DecidableEq

/-- Embeds `app.services.v2.models.PassJSON` as raw field data, before the
`check_pass_style` model validator runs.  `locations`, `semantics`,
`upcomingPassInformation`, `webServiceURL` and `authenticationToken` are
omitted: no claim or validator logic reads them. -/
structure PassJSONData where
  formatVersion : Int := 1
  passTypeIdentifier : String
  serialNumber : String
  teamIdentifier : String
  organizationName : String
  description : String
  logoText : Option String := none
  foregroundColor : Option String := none
  backgroundColor : Option String := none
  labelColor : Option String := none
  eventTicket : Option PassStructure := none
  generic : Option PassStructure := none
  boardingPass : Option PassStructure := none
  coupon : Option PassStructure := none
  storeCard : Option PassStructure := none
  barcode : Option PKBarcode := none
  barcodes : Option (List PKBarcode) := none
  expirationDate : Option String := none
  relevantDate : Option String := none
  associatedStoreIdentifiers : Option (List Int) := none
deriving DecidableEq

/-- Number of populated style sections
(`sum(1 for s in styles if s is not None)`). -/
def styleCount (p : PassJSONData) : Nat :=
  ([p.eventTicket, p.generic, p.boardingPass, p.coupon,
    p.storeCard].countP (fun o => o.isSome))

/-- Constructing a `PassJSON`: the `check_pass_style` model validator
raises (`none`) unless exactly one style section is set. -/
def mkPassJSON (p : PassJSONData) : Option PassJSONData :=
  if styleCount p = 1 then some p else none

/-! ### `pass_validator._valid_rgb` / `_valid_iso8601` -/

/-- Digits of a decimal literal to a number. -/
def digitsToNat (ds : List Char) : Nat :=
  ds.foldl (fun acc c => 10 * acc + (c.toNat - 48)) 0

/-- One `\s*(\d{1,3})` group of `_RGB_PATTERN`: skip whitespace, then a
run of one to three digits. -/
def parseChannel (l : List Char) : Option (Nat × List Char) :=
  let l1 := l.dropWhile isPySpace
  let ds := l1.takeWhile Char.isDigit
  if ds.length = 0 || 3 < ds.length then none
  else some (digitsToNat ds, l1.drop ds.length)

/-- Require character `c` next. -/
def expectChar (c : Char) : List Char → Option (List Char)
  | x :: rest => if x = c then some rest else none
  | [] => none

/-- Embeds `_RGB_PATTERN.match(value)`: the regex
`^rgb\(\s*(\d{1,3})\s*,\s*(\d{1,3})\s*,\s*(\d{1,3})\s*\)$`
returning the three captured channel values. -/
def rgb_match (value : String) : Option (Nat × Nat × Nat) :=
  match value.data with
  | 'r' :: 'g' :: 'b' :: '(' :: rest => do
    let (n1, r1) ← parseChannel rest
    let r2 ← expectChar ',' (r1.dropWhile isPySpace)
    let (n2, r3) ← parseChannel r2
    let r4 ← expectChar ',' (r3.dropWhile isPySpace)
    let (n3, r5) ← parseChannel r4
    let r6 ← expectChar ')' (r5.dropWhile isPySpace)
    if r6 = [] then some (n1, n2, n3) else none
  | _ => none

/-- Embeds `pass_validator._valid_rgb`: pattern match plus the ≤ 255 check on each
channel. -/
def valid_rgb (value : String) : Bool :=
  match rgb_match value with
  | none => false
  | some (r, g, b) => decide (r ≤ 255) && decide (g ≤ 255) && decide (b ≤ 255)

/-- Exactly `n` digits. -/
def takeDigits : Nat → List Char → Option (List Char)
  | 0, l => some l
  | _ + 1, [] => none
  | n + 1, c :: rest => if c.isDigit then takeDigits n rest else none

/-- Embeds `_ISO8601_PATTERN`:
`^\d{4}-\d{2}-\d{2}(T\d{2}:\d{2}(:\d{2})?(\.\d+)?(Z|[+-]\d{2}:\d{2})?)?$`. -/
def valid_iso8601 (value : String) : Bool :=
  (do
    let r ← takeDigits 4 value.data
    let r ← expectChar '-' r
    let r ← takeDigits 2 r
    let r ← expectChar '-' r
    let r ← takeDigits 2 r
    match r with
    | [] => some ()
    | 'T' :: r => do
      let r ← takeDigits 2 r
      let r ← expectChar ':' r
      let r ← takeDigits 2 r
      let r ← (match r with
        | ':' :: r2 => takeDigits 2 r2
        | _ => some r)
      let r ← (match r with
        | '.' :: r2 =>
          let ds := r2.takeWhile Char.isDigit
          if ds.length = 0 then none else some (r2.drop ds.length)
        | _ => some r)
      match r with
      | [] => some ()
      | ['Z'] => some ()
      | '+' :: r2 => do
        let r3 ← takeDigits 2 r2
        let r3 ← expectChar ':' r3
        let r3 ← takeDigits 2 r3
        if r3 = [] then some () else none
      | '-' :: r2 => do
        let r3 ← takeDigits 2 r2
        let r3 ← expectChar ':' r3
        let r3 ← takeDigits 2 r3
        if r3 = [] then some () else none
      | _ => none
    | _ => none : Option Unit).isSome

/-! ### `pass_validator.validate_pass`, split into its sections.
`validate_pass` appends every section's messages to one `errors` list in
source order; each section is modelled as the list of messages it
appends. -/

/-- Embeds `_VALID_BARCODE_FORMATS`. -/
def VALID_BARCODE_FORMATS : List String :=
  ["PKBarcodeFormatQR", "PKBarcodeFormatPDF417", "PKBarcodeFormatAztec",
   "PKBarcodeFormatCode128"]

/-- Valid `boardingPass.transitType` values. -/
def VALID_TRANSIT : List String :=
  ["PKTransitTypeAir", "PKTransitTypeBoat", "PKTransitTypeBus",
   "PKTransitTypeGeneric", "PKTransitTypeTrain"]

/-- The `_require_nonempty` block.  The first check,
`pass_json.formatVersion is not None`, can never fail (the field is a
non-optional int in the pydantic model), so it appends nothing. -/
def requiredErrors (p : PassJSONData) : List String :=
  (if p.passTypeIdentifier = "" then ["passTypeIdentifier is required"] else []) ++
  (if p.serialNumber = "" then ["serialNumber is required"] else []) ++
  (if p.teamIdentifier = "" then ["teamIdentifier is required"] else []) ++
  (if p.organizationName = "" then ["organizationName is required"] else []) ++
  (if p.description = "" then ["description is required"] else [])

/-- Embeds `formatVersion must be 1`. -/
def formatVersionErrors (p : PassJSONData) : List String :=
  if p.formatVersion ≠ 1 then
    ["formatVersion must be 1, got " ++ toString p.formatVersion] else []

/-- Names of the populated style sections, in the dict order of
`style_fields`. -/
def styleNames (p : PassJSONData) : List String :=
  (if p.eventTicket.isSome then ["eventTicket"] else []) ++
  (if p.generic.isSome then ["generic"] else []) ++
  (if p.boardingPass.isSome then ["boardingPass"] else []) ++
  (if p.coupon.isSome then ["coupon"] else []) ++
  (if p.storeCard.isSome then ["storeCard"] else [])

/-- The "exactly one pass style" section.  (Python renders the name list
with brackets and quotes; the cosmetic rendering of `set_styles` is
modelled by `toString`.) -/
def styleErrors (p : PassJSONData) : List String :=
  if styleCount p ≠ 1 then
    ["Exactly one pass style must be set; found " ++
      toString (styleCount p) ++ ": " ++ toString (styleNames p)]
  else []

/-- The `boardingPass requires transitType` section; Python `not
transitType` is also true for the empty string. -/
def transitErrors (p : PassJSONData) : List String :=
  match p.boardingPass with
  | none => []
  | some st =>
    match st.transitType with
    | none => ["boardingPass requires transitType"]
    | some t =>
      if t = "" then ["boardingPass requires transitType"]
      else if t ∈ VALID_TRANSIT then []
      else ["boardingPass.transitType '" ++ t ++ "' is not valid"]

/-- One color field check. -/
def colorErr (name : String) (v : Option String) : List String :=
  match v with
  | none => []
  | some c =>
    if valid_rgb c then []
    else [name ++ " '" ++ c ++ "' is not a valid rgb(r,g,b) string"]

/-- The color-value section. -/
def colorErrors (p : PassJSONData) : List String :=
  colorErr "foregroundColor" p.foregroundColor ++
  colorErr "backgroundColor" p.backgroundColor ++
  colorErr "labelColor" p.labelColor

/-- Per-item check of the `barcodes` array. -/
def barcodesItemErrors : Nat → List PKBarcode → List String
  | _, [] => []
  | i, b :: rest =>
    (if b.format ∈ VALID_BARCODE_FORMATS then []
     else ["barcodes[" ++ toString i ++ "].format '" ++ b.format ++
       "' is not valid"]) ++
    (if b.message = "" then
      ["barcodes[" ++ toString i ++ "].message must not be empty"] else []) ++
    barcodesItemErrors (i + 1) rest

/-- The barcode-format section.  (`if pass_json.barcodes:` skips both
`None` and the empty list, and iterating an empty list appends nothing, so
the two are modelled alike.) -/
def barcodeErrors (p : PassJSONData) : List String :=
  (match p.barcode with
   | none => []
   | some b =>
     (if b.format ∈ VALID_BARCODE_FORMATS then []
      else ["barcode.format '" ++ b.format ++
        "' is not a valid PKBarcodeFormat"]) ++
     (if b.message = "" then ["barcode.message must not be empty"] else [])) ++
  (match p.barcodes with
   | none => []
   | some l => barcodesItemErrors 0 l)

/-- Embeds `_check_unique_keys`: a `seen` set driven left to right. -/
def dupKeyGo (style field : String) (seen : List String) :
    List PassField → List String
  | [] => []
  | f :: rest =>
    (if f.key ∈ seen then
      [style ++ "." ++ field ++ " has duplicate key '" ++ f.key ++ "'"]
     else []) ++
    dupKeyGo style field (f.key :: seen) rest

/-- The five `_check_unique_keys` calls for one populated style. -/
def structKeyErrors (name : String) (s : PassStructure) : List String :=
  dupKeyGo name "headerFields" [] s.headerFields ++
  dupKeyGo name "primaryFields" [] s.primaryFields ++
  dupKeyGo name "secondaryFields" [] s.secondaryFields ++
  dupKeyGo name "auxiliaryFields" [] s.auxiliaryFields ++
  dupKeyGo name "backFields" [] s.backFields

/-- The field-key-uniqueness section, iterating `style_fields` in dict
order. -/
def keyErrors (p : PassJSONData) : List String :=
  (match p.eventTicket with
   | some s => structKeyErrors "eventTicket" s | none => []) ++
  (match p.generic with
   | some s => structKeyErrors "generic" s | none => []) ++
  (match p.boardingPass with
   | some s => structKeyErrors "boardingPass" s | none => []) ++
  (match p.coupon with
   | some s => structKeyErrors "coupon" s | none => []) ++
  (match p.storeCard with
   | some s => structKeyErrors "storeCard" s | none => [])

/-- One ISO-8601 date field check. -/
def dateErr (name : String) (v : Option String) : List String :=
  match v with
  | none => []
  | some d =>
    if valid_iso8601 d then []
    else [name ++ " '" ++ d ++ "' is not a valid ISO 8601 date string"]

/-- The date section. -/
def dateErrors (p : PassJSONData) : List String :=
  dateErr "expirationDate" p.expirationDate ++
  dateErr "relevantDate" p.relevantDate

/-- Embeds `app.services.v2.pass_validator.validate_pass`: runs every section in
source order and returns `(len(errors) == 0, errors)`. -/
def validate_pass (p : PassJSONData) : Bool × List String :=
  let errors :=
    requiredErrors p ++ formatVersionErrors p ++ styleErrors p ++
    transitErrors p ++ colorErrors p ++ barcodeErrors p ++ keyErrors p ++
    dateErrors p
  (decide (errors = []), errors)

/-! ### `app.services.v2.models.PDFExtraction` and `pass_builder` -/

/-- Embeds `PDFExtraction`: structured output of the (external) AI extraction
step. -/
structure PDFExtraction where
  document_type : String
  title : String
  organization : Option String := none
  event_name : Option String := none
  venue_name : Option String := none
  venue_address : Option String := none
  date : Option String := none
  time : Option String := none
  seat_info : Option String := none
  gate_info : Option String := none
  confirmation_number : Option String := none
  performer : Option String := none
  price : Option String := none
  confidence : Nat := 0
deriving DecidableEq

/-- Embeds `PDFExtraction.sanitize_title` (the pydantic field validator):
blank titles and ≥32-character hex/UUID-shaped titles become
`"Digital Pass"`, everything else is truncated to 30 characters. -/
def sanitize_title_v2 (v : String) : String :=
  let v1 := String.mk (stripEnds isPySpace v.data)
  if v1 = "" then "Digital Pass"
  else
    let dashless := v1.data.filter (fun c => c ≠ '-')
    if 32 ≤ dashless.length ∧ dashless.all (fun c => isHexChar c || c = '-')
    then "Digital Pass"
    else takeStr 30 v1

/-- Embeds `pass_builder._EVENT_TICKET_TYPES`. -/
def EVENT_TICKET_TYPES : List String := ["event_ticket"]

/-- Embeds `pass_builder._type_label`. -/
def type_label (document_type : String) : String :=
  Pipeline.mapGetD
    [("event_ticket", "EVENT"), ("boarding_pass", "BOARDING"),
     ("transit", "TRANSIT"), ("hotel", "HOTEL"), ("generic", "DOCUMENT")]
    document_type "DOCUMENT"

/-- Embeds `pass_builder._build_description`. -/
def build_description (e : PDFExtraction) : String :=
  let parts :=
    (match e.date with | some d => [d] | none => []) ++
    (match e.time with | some t => [t] | none => []) ++
    (match e.venue_name with | some v => [v] | none => [])
  match parts with
  | [] => "Digital pass"
  | _ => takeStr 80 (String.intercalate " • " parts)

/-- Embeds `pass_builder._build_structure`. -/
def build_structure (e : PDFExtraction) (_event_ticket : Bool) :
    PassStructure :=
  let header := [{ key := "header", label := type_label e.document_type,
                   value := takeStr 25 e.title : PassField }]
  let primary := [{ key := "title", label := "", value := e.title : PassField }]
  let secondary :=
    (match e.date with
     | some d => [{ key := "date", label := "Date", value := d : PassField }]
     | none => []) ++
    (match e.time with
     | some t => [{ key := "time", label := "Time", value := t : PassField }]
     | none => []) ++
    (match e.seat_info with
     | some si => [{ key := "seat", label := "Seat", value := si : PassField }]
     | none =>
       match e.gate_info with
       | some gi => [{ key := "gate", label := "Gate", value := gi : PassField }]
       | none => [])
  let auxiliary :=
    (match e.venue_name with
     | some v => [{ key := "venue", label := "Venue", value := v : PassField }]
     | none => []) ++
    (match e.performer with
     | some pf => [{ key := "performer", label := "Artist", value := pf : PassField }]
     | none => []) ++
    (match e.confirmation_number with
     | some c => [{ key := "confirmation", label := "Confirmation",
                    value := c : PassField }]
     | none => []) ++
    (match e.price with
     | some pr => [{ key := "price", label := "Price", value := pr : PassField }]
     | none => [])
  { headerFields := header
    primaryFields := primary
    secondaryFields := secondary
    auxiliaryFields := auxiliary }

/-- Python's `a or default` for an optional string field (falsy includes
the empty string). -/
def orDefault (v : Option String) (d : String) : String :=
  match v with
  | some st => if st = "" then d else st
  | none => d

/-- Embeds `app.services.v2.pass_builder.build_pass`.  The nondeterministic and
environment-dependent inputs of the source are explicit parameters:
`serial` stands for `str(uuid.uuid4())[:16]`, `expiry` for the formatted
result of `_compute_expiry` (calendar formatting is external), and
`store_ids` for `_get_store_ids()` (an env-var lookup). -/
def build_pass (extraction : PDFExtraction)
    (barcodes : List Pipeline.ExtractedBarcode)
    (bg_color fg_color label_color : String)
    (ticket_index total_tickets : Nat)
    (pass_type_id team_id : String)
    (serial expiry : String) (store_ids : Option (List Int)) :
    PassJSONData :=
  let title :=
    if 1 < total_tickets then
      extraction.title ++ " (#" ++ toString (ticket_index + 1) ++ ")"
    else extraction.title
  let description0 := build_description extraction
  let description :=
    if 1 < total_tickets then
      description0 ++ " — Ticket " ++ toString (ticket_index + 1) ++
        " of " ++ toString total_tickets
    else description0
  let organization := orDefault extraction.organization "Add2Wallet"
  let use_event_ticket := extraction.document_type ∈ EVENT_TICKET_TYPES
  let structure0 := build_structure extraction use_event_ticket
  let pk_barcode : Option PKBarcode :=
    match barcodes with
    | [] => none
    | b0 :: _ =>
      let bc := barcodes.getD ticket_index b0
      some { format := bc.pk_format, message := bc.message,
             messageEncoding := bc.message_encoding }
  { formatVersion := 1
    passTypeIdentifier := pass_type_id
    serialNumber := serial
    teamIdentifier := team_id
    organizationName := organization
    description := description
    logoText := some (takeStr 20 title)
    foregroundColor := some fg_color
    backgroundColor := some bg_color
    labelColor := some label_color
    eventTicket := if use_event_ticket then some structure0 else none
    generic := if use_event_ticket then none else some structure0
    barcode := pk_barcode
    barcodes := pk_barcode.map (fun b => [b])
    expirationDate := some expiry
    associatedStoreIdentifiers := store_ids }

/-! ### Expiration dates (`pass_builder._compute_expiry` and
`pass_generator._compute_expiration_date`, which share the same logic) -/

/-- A naive datetime as `dateutil.parser.parse` returns it, on a linear
day/minute-of-day timeline (no timezone; `timedelta(days=1)` is exactly
1440 minutes on naive datetimes).  Seconds and microseconds are zeroed by
the code before any comparison and play no role. -/
structure NaiveDT where
  day : Nat
  minute : Nat
deriving DecidableEq

/-- Minutes on the linear timeline, the order `datetime` comparison
uses. -/
def NaiveDT.total (t : NaiveDT) : Nat := t.day * 1440 + t.minute

/-- Python `dt + timedelta(minutes=m)`. -/
def NaiveDT.addMinutes (t : NaiveDT) (m : Nat) : NaiveDT :=
  ⟨t.day + (t.minute + m) / 1440, (t.minute + m) % 1440⟩

/-- The shared expiry computation: given the parsed event datetime (or
`none` when no date is present or parsing raised), return the expiration
datetime.  `dt.replace(hour=3, minute=0, second=0, microsecond=0)` is
03:00 on the event day; a day is added when that instant is not strictly
after `dt`. -/
def compute_expiry (parsed : Option NaiveDT) (now : NaiveDT) : NaiveDT :=
  match parsed with
  | some dt =>
    let expire : NaiveDT := ⟨dt.day, 180⟩
    if expire.total ≤ dt.total then ⟨expire.day + 1, 180⟩ else expire
  | none => now.addMinutes (90 * 1440)

end Models

namespace PassGenerator

/-- Python `title.replace("_", " ")`. -/
def replaceUnderscore (l : List Char) : List Char :=
  l.map (fun c => if c = '_' then ' ' else c)

/-- Python `re.sub(r"\s+", " ", ·)`: each maximal whitespace run becomes one
space. -/
def collapseWS : List Char → List Char
  | [] => []
  | [c] => if isPySpace c then [' '] else [c]
  | c :: d :: rest =>
    if isPySpace c then
      if isPySpace d then collapseWS (d :: rest)
      else ' ' :: collapseWS (d :: rest)
    else c :: collapseWS (d :: rest)

/-- The cleanup line of `_sanitize_title`:
`re.sub(r"\s+", " ", title.replace("_", " ")).strip().strip('\x22')`. -/
def cleanTitle (title : String) : List Char :=
  stripEnds (fun c => c = '\x22')
    (stripEnds isPySpace (collapseWS (replaceUnderscore title.data)))

/-- The hyphenated-UUID pattern
`[0-9a-fA-F]{8}-[0-9a-fA-F]{4}-[0-9a-fA-F]{4}-[0-9a-fA-F]{4}-[0-9a-fA-F]{12}`
(fullmatch): 36 characters, dashes exactly at offsets 8, 13, 18 and 23,
hex digits everywhere else. -/
def isUUIDHyphen (l : List Char) : Bool :=
  decide (l.length = 36) &&
    (List.range 36).all (fun i =>
      if i = 8 || i = 13 || i = 18 || i = 23 then l.getD i ' ' = '-'
      else isHexChar (l.getD i ' '))

/-- The compact pattern `[0-9a-fA-F]{32}` (fullmatch). -/
def isHex32 (l : List Char) : Bool :=
  decide (l.length = 32) && l.all isHexChar

/-- The fare-class tokens of `_sanitize_title`. -/
def suspiciousTokens : List String :=
  ["ADULT", "CHILD", "SENIOR", "INFANT", "YOUTH", "ZONE", "SEAT", "CLASS",
   "TYPE", "FARE"]

/-- The redundant title suffixes of `_sanitize_title`. -/
def redundantSuffixes : List String :=
  [" Ticket", " Event", " Receipt", " Pass", " Voucher", " E-ticket",
   " Eticket"]

/-- The suffix-removal loop: try each suffix in order, first with an exact
`endswith`, then case-insensitively; strip and stop at the first match. -/
def removeSuffix (cleaned : List Char) : List String → List Char
  | [] => cleaned
  | sfx :: rest =>
    if sfx.data.isSuffixOf cleaned then
      stripEnds isPySpace (cleaned.take (cleaned.length - sfx.data.length))
    else if (sfx.data.map Char.toLower).isSuffixOf
        (cleaned.map Char.toLower) then
      stripEnds isPySpace (cleaned.take (cleaned.length - sfx.data.length))
    else removeSuffix cleaned rest

/-- The fallback expression
`(fallback_name or d).replace("_", " ").strip()`, returned as
`cleaned_fb[:30] if cleaned_fb else d`. -/
def fbClean (fallback_name : Option String) (d : String) : String :=
  let c := stripEnds isPySpace
    (replaceUnderscore (Models.orDefault fallback_name d).data)
  if c = [] then d else String.mk (c.take 30)

/-- Embeds `pass_generator.PassGenerator._sanitize_title`.  The one numeric
guard, `hex_chars / max(1, len(cleaned)) > 0.8`, is a float comparison in
the source; it is modelled as the exact rational comparison
`5 * hex_chars > 4 * max 1 len`, with which it agrees at every realizable
title length. -/
def sanitize_title (title : String) (fallback_name : Option String) :
    String :=
  if title = "" ∨ stripEnds isPySpace title.data = [] then
    fbClean fallback_name "Ticket"
  else
    let cleaned := cleanTitle title
    if isUUIDHyphen cleaned || isHex32 cleaned then
      fbClean fallback_name "Digital Pass"
    else if (cleaned.filter Char.isAlpha).length < 2 then
      fbClean fallback_name "Ticket"
    else if ¬ ' ' ∈ cleaned ∧ 20 ≤ cleaned.length then
      fbClean fallback_name "Digital Pass"
    else if 4 * max 1 cleaned.length < 5 * (cleaned.filter isHexChar).length
    then fbClean fallback_name "Digital Pass"
    else if String.mk (stripEnds isPySpace (cleaned.map Char.toUpper))
        ∈ suspiciousTokens then
      fbClean fallback_name "Digital Pass"
    else String.mk ((removeSuffix cleaned redundantSuffixes).take 30)

end PassGenerator

namespace Signer

/-- Python `filename.startswith(".")`. -/
def isHiddenName (name : String) : Bool :=
  match name.data with
  | '.' :: _ => true
  | [] => false
  | _ :: _ => false

/-- Comparator for `sorted(os.listdir(...))`: lexicographic filename
order. -/
def nameLe (a b : String × List (Fin 256)) : Bool := !(decide (b.1 < a.1))

/-- Embeds `PassSigner.create_manifest`: iterate the directory in sorted filename
order, skip dotfiles and `manifest.json`, and map every remaining file to
a content hash.  The hash function (`hashlib.sha1(...).hexdigest()`) is an
external primitive, passed as `hash`. -/
def create_manifest (hash : List (Fin 256) → String)
    (dir : List (String × List (Fin 256))) : List (String × String) :=
  ((pysort nameLe dir).filter
    (fun f => !(isHiddenName f.1) && f.1 != "manifest.json")).map
    (fun f => (f.1, hash f.2))

/-- Embeds `PassSigner.sign_manifest`: empty signature bytes whenever signing is
disabled; otherwise the PKCS#7 engine (external, parameter `sign`; the
`except` branch that also yields `b""` is folded into `sign`'s output). -/
def sign_manifest (signing_enabled : Bool)
    (sign : List (Fin 256) → List (Fin 256))
    (manifest_bytes : List (Fin 256)) : List (Fin 256) :=
  if signing_enabled then sign manifest_bytes else []

/-- Writing a file into the scratch directory (create or overwrite). -/
def setFile (dir : List (String × List (Fin 256))) (name : String)
    (content : List (Fin 256)) : List (String × List (Fin 256)) :=
  if name ∈ dir.map Prod.fst then
    dir.map (fun f => if f.1 = name then (name, content) else f)
  else dir ++ [(name, content)]

/-- Embeds `PassSigner.build_pkpass`: zip every non-dot file of the directory.
The container is modelled as the list of (name, content) entries. -/
def build_pkpass (dir : List (String × List (Fin 256))) :
    List (String × List (Fin 256)) :=
  dir.filter (fun f => !(isHiddenName f.1))

/-- Embeds `PassSigner.package_pass`: write `manifest.json`, sign it when
signing is enabled (writing a `signature` file only for a non-empty
signature), and zip the directory.  `serialize` stands for
`json.dump(manifest, ...)`. -/
def package_pass (signing_enabled : Bool)
    (sign : List (Fin 256) → List (Fin 256))
    (hash : List (Fin 256) → String)
    (serialize : List (String × String) → List (Fin 256))
    (dir : List (String × List (Fin 256))) :
    List (String × List (Fin 256)) :=
  let manifest := create_manifest hash dir
  let dir1 := setFile dir "manifest.json" (serialize manifest)
  let dir2 :=
    if signing_enabled then
      let sig := sign_manifest signing_enabled sign (serialize manifest)
      if sig ≠ [] then setFile dir1 "signature" sig else dir1
    else dir1
  build_pkpass dir2

end Signer

namespace PassGenerator

/-- The Data Matrix warning of `PassGenerator.create_enhanced_pass`. -/
def V1_DM_WARNING : String :=
  "This PDF contains a Data Matrix code, which is not supported by Apple Wallet. The pass has been saved without a barcode for future reference when support is added."

/-- The barcode-attachment fragment of
`PassGenerator.create_enhanced_pass` (the `primary_barcode` block): skip
Data Matrix with a warning, otherwise embed raw bytes via latin-1 or the
normalised text; with no primary barcode, fall back to AI-extracted
barcode data when it is longer than 5 characters.  Returns the `barcode`
object (mirrored into `barcodes` by the source) and the updated warnings
list. -/
def v1_attach_barcode (primary_barcode : Option BarcodeExtractor.RawBC)
    (barcode_data_fallback : Option String) (warnings : List String) :
    Option Models.PKBarcode × List String :=
  match primary_barcode with
  | some pb =>
    if pb.btype = "DATAMATRIX" then (none, warnings ++ [V1_DM_WARNING])
    else
      match pb.raw_bytes with
      | some bs =>
        (some { format := pb.format,
                message := String.mk (latin1OfBytes bs),
                messageEncoding := "iso-8859-1" }, warnings)
      | none =>
        let normalized :=
          String.mk (Pipeline.stripNL (Pipeline.replaceCRLF pb.data.data))
        if normalized = "" then (none, warnings)
        else
          (some { format := pb.format, message := normalized,
                  messageEncoding := "iso-8859-1" }, warnings)
  | none =>
    match barcode_data_fallback with
    | some d =>
      if 5 < d.length then
        (some { format := "PKBarcodeFormatQR", message := d,
                messageEncoding := "iso-8859-1" }, warnings)
      else (none, warnings)
    | none => (none, warnings)

end PassGenerator

namespace BarcodeExtractor

/-- A candidate record with the fields the claims exercise; the remaining
dict keys take the values the detector writes for a rasterized detection. -/
def mkBC (data btype format : String) (raw : Option (List (Fin 256)))
    (conf area : Nat) (dist : ℚ) (page : Nat) (method : String) : RawBC :=
  { data := data, btype := btype, format := format, encoding := "utf-8",
    raw_bytes := raw, confidence := conf, area := area,
    center_distance := dist, page := page, method := method,
    src := "rasterized-page", dpi := 150 }

/-- Embeds `_try_formats` stops at the first group whose decode attempt yields a
candidate: the groups attempted are exactly the prefix up to and
including that group, and the result is the best-candidate selection of
that group alone. -/
theorem try_formats_trace_first (decode : List String → List RawBC)
    (page : Nat) (method : String) :
    ∀ (groups : List (List String)) (k : Nat), k < groups.length →
      (∀ j, j < k → decode (groups.getD j []) = []) →
      decode (groups.getD k []) ≠ [] →
      try_formats_trace decode page method groups =
        (groups.take (k + 1),
         choose_best ((decode (groups.getD k [])).map
           (annotate page method))) := by
  intro groups
  induction groups with
  | nil => intro k hk; simp at hk
  | cons g rest ih =>
    intro k hk hempty hne
    cases k with
    | zero =>
      simp only [List.getD_cons_zero] at hne
      simp only [try_formats_trace]
      rcases hd : decode g with _ | ⟨b, bs⟩
      · exact absurd hd hne
      · simp [List.take, List.getD_cons_zero, hd]
    | succ k' =>
      have h0 : decode g = [] := by
        have := hempty 0 (Nat.succ_pos k')
        simpa using this
      simp only [try_formats_trace, h0]
      have hrest := ih k' (by simpa using hk)
        (fun j hj => by
          have := hempty (j + 1) (by omega)
          simpa using this)
        (by simpa using hne)
      rw [hrest]
      simp

end BarcodeExtractor

/-! ## Claim theorems -/

open BarcodeExtractor

theorem keyLe_refl (a : RawBC) : keyLe a a = true := by
  have h := keyLe_total a a
  rw [Bool.or_eq_true] at h
  tauto

/-- Modelled from the spec's words, for comparison only: the four-level
precedence claim C3 asserts (Aztec, then PDF417 as its own group, then QR,
then the 1D/linear symbologies as one final group). -/
def spec_format_groups : List (List String) :=
  [["AZTEC"], ["PDF417"], ["QRCODE"],
   ["CODE128", "CODE39", "CODE93", "CODABAR", "EAN8", "EAN13", "UPC_A",
    "UPC_E", "ITF"]]

/-- A decoder (for one fixed image) that finds a PDF417 candidate whenever
the attempted group allows PDF417, else a QR candidate whenever the group
allows QR. -/
def c3decode (g : List String) : List RawBC :=
  if "PDF417" ∈ g then
    [mkBC "P" "PDF417" "PKBarcodeFormatPDF417" none 90 100 0 1 "standard"]
  else if "QRCODE" ∈ g then
    [mkBC "Q" "QRCODE" "PKBarcodeFormatQR" none 90 100 0 1 "standard"]
  else []

/-- Claim C3 is false as stated: the detector has three format groups, not
four; PDF417 is not its own second-priority group but part of the final
catch-all group (together with DATAMATRIX).  On an image carrying both a
PDF417 and a QR code, the claimed precedence would return the PDF417
candidate, but the code returns the QR candidate. -/
theorem C3_counterexample :
    format_groups.length = 3 ∧
    (∀ g ∈ format_groups, g ≠ ["PDF417"]) ∧
    "PDF417" ∈ format_groups.getD 2 [] ∧
    "DATAMATRIX" ∈ format_groups.getD 2 [] ∧
    (try_formats c3decode 1 "standard" format_groups).map
      (fun bc => bc.btype) = ["QRCODE"] ∧
    (try_formats c3decode 1 "standard" spec_format_groups).map
      (fun bc => bc.btype) = ["PDF417"] := by
  decide

/-- Claim C3 (amended): decoding is invoked once per ordered group from
the fixed three-level precedence `format_groups` — Aztec, then QR, then
all remaining symbologies (PDF417 and DATAMATRIX included) as one final
group — and the first group yielding ≥ 1 candidate ends the scan: the
attempted groups are exactly the prefix through that group, and the
result is the best-candidate selection of that group alone. -/
theorem C3_theorem (decode : List String → List RawBC) (page : Nat)
    (method : String) (k : Nat) (hk : k < format_groups.length)
    (hempty : ∀ j, j < k → decode (format_groups.getD j []) = [])
    (hne : decode (format_groups.getD k []) ≠ []) :
    try_formats_trace decode page method format_groups =
      (format_groups.take (k + 1),
       choose_best ((decode (format_groups.getD k [])).map
         (annotate page method))) :=
  try_formats_trace_first decode page method format_groups k hk hempty hne

theorem C3_theorem_witness :
    try_formats_trace c3decode 1 "standard" format_groups =
      ([["AZTEC"], ["QRCODE"]],
       choose_best ((c3decode ["QRCODE"]).map (annotate 1 "standard"))) :=
  C3_theorem c3decode 1 "standard" 1 (by decide)
    (fun j hj => by
      have hj0 : j = 0 := by omega
      subst hj0
      decide)
    (by decide)

/-- Claim C6 (amended): for a non-empty candidate list of one format group
the selector keeps exactly one candidate — a maximum under the strict
lexicographic order (highest confidence, then largest area, then smallest
center distance) — and it is the FIRST such maximum in input order:
candidates tied on all three keys are separated by their position in the
input list. -/
theorem C6_theorem (bs : List RawBC) (hne : bs ≠ []) :
    ∃ m, choose_best bs = [m] ∧
      bs.find? (fun b => bs.all (fun x => keyLe b x)) = some m ∧
      m ∈ bs ∧ ∀ x ∈ bs, keyLe m x = true := by
  cases bs with
  | nil => exact absurd rfl hne
  | cons b1 t =>
    cases t with
    | nil =>
      have hfind : List.find?
          (fun b => [b1].all fun x => keyLe b x) [b1] = some b1 := by
        apply List.find?_cons_of_pos
        simp [keyLe_refl]
      refine ⟨b1, rfl, hfind, by simp, ?_⟩
      intro x hx
      rcases List.mem_singleton.mp hx with rfl
      exact keyLe_refl x
    | cons b2 t2 =>
      have hp := pysort_head keyLe_trans keyLe_total (b1 :: b2 :: t2)
      cases hs : pysort keyLe (b1 :: b2 :: t2) with
      | nil =>
        have hl := length_pysort keyLe (b1 :: b2 :: t2)
        rw [hs] at hl
        simp at hl
      | cons m r =>
        rw [hs] at hp
        have hfind : List.find?
            (fun b => (b1 :: b2 :: t2).all fun x => keyLe b x)
            (b1 :: b2 :: t2) = some m := by
          rw [← hp]
          rfl
        have hmem : m ∈ b1 :: b2 :: t2 := List.mem_of_find?_eq_some hfind
        have hmax := List.find?_some hfind
        refine ⟨m, ?_, hfind, hmem, ?_⟩
        · simp only [choose_best]
          rw [hs]
        · intro x hx
          exact List.all_eq_true.mp hmax x hx

/-- Two candidates tied on confidence, area and center distance but with
different payloads. -/
def c6a : RawBC :=
  mkBC "payloadA" "QRCODE" "PKBarcodeFormatQR" none 90 100 0 1 "standard"

def c6b : RawBC :=
  mkBC "payloadB" "QRCODE" "PKBarcodeFormatQR" none 90 100 0 1 "standard"

/-- Claim C6 is false as stated on full ties: with two distinct candidates
equal on all three sort keys, the kept candidate is decided by input
position — swapping the input order swaps the winner. -/
theorem C6_counterexample :
    c6a ≠ c6b ∧ keyLe c6a c6b = true ∧ keyLe c6b c6a = true ∧
    choose_best [c6a, c6b] = [c6a] ∧ choose_best [c6b, c6a] = [c6b] := by
  decide

theorem C6_theorem_witness :
    ∃ m, choose_best [c6a, c6b] = [m] ∧
      [c6a, c6b].find?
        (fun b => [c6a, c6b].all (fun x => keyLe b x)) = some m ∧
      m ∈ [c6a, c6b] ∧ ∀ x ∈ [c6a, c6b], keyLe m x = true :=
  C6_theorem [c6a, c6b] (by decide)

/-- Largest candidate area in a list (`max(codes, key=area).area`). -/
def bestArea (l : List RawBC) : Nat :=
  l.foldl (fun a x => Nat.max a x.area) 0

theorem max_by_area_area (rest : List RawBC) : ∀ b0 : RawBC,
    (max_by_area b0 rest).area =
      rest.foldl (fun a x => Nat.max a x.area) b0.area := by
  induction rest with
  | nil => intro b0; rfl
  | cons x r ih =>
    intro b0
    simp only [max_by_area, List.foldl] at *
    rw [ih]
    congr 1
    by_cases h : b0.area < x.area
    · rw [if_pos h]
      exact (Nat.max_eq_right (le_of_lt h)).symm
    · rw [if_neg h]
      exact (Nat.max_eq_left (by omega)).symm

theorem max_by_area_bestArea (b0 : RawBC) (rest : List RawBC) :
    (max_by_area b0 rest).area = bestArea (b0 :: rest) := by
  rw [max_by_area_area]
  simp [bestArea, List.foldl]

/-- Claim C7 (confirmed): when a detection pass holds both Aztec and QR
candidates, a filename ticket/pass hint keeps the Aztec candidates
regardless of area; without a hint the symbology whose best member has the
strictly larger bounding-box area wins, and Aztec wins exact area ties.
(The non-Aztec, non-QR candidates ride along in either case.) -/
theorem C7_theorem (bs : List RawBC) (filename : String)
    (ha : bs.filter (fun bc => bc.btype == "AZTEC") ≠ [])
    (hq : bs.filter (fun bc => bc.btype == "QRCODE") ≠ []) :
    (has_aztec_hint filename = true →
      handle_mixed_aztec_qr bs filename =
        bs.filter (fun bc => bc.btype == "AZTEC") ++
        bs.filter (fun bc => bc.btype != "AZTEC" && bc.btype != "QRCODE")) ∧
    (has_aztec_hint filename = false →
      (bestArea (bs.filter (fun bc => bc.btype == "QRCODE")) ≤
          bestArea (bs.filter (fun bc => bc.btype == "AZTEC")) →
        handle_mixed_aztec_qr bs filename =
          bs.filter (fun bc => bc.btype == "AZTEC") ++
          bs.filter (fun bc => bc.btype != "AZTEC" && bc.btype != "QRCODE")) ∧
      (bestArea (bs.filter (fun bc => bc.btype == "AZTEC")) <
          bestArea (bs.filter (fun bc => bc.btype == "QRCODE")) →
        handle_mixed_aztec_qr bs filename =
          bs.filter (fun bc => bc.btype == "QRCODE") ++
          bs.filter (fun bc => bc.btype != "AZTEC" && bc.btype != "QRCODE"))) := by
  cases bs with
  | nil => simp at ha
  | cons b bs' =>
    rcases hfa : (b :: bs').filter (fun bc => bc.btype == "AZTEC") with
      _ | ⟨a0, arest⟩
    · exact absurd hfa ha
    rcases hfq : (b :: bs').filter (fun bc => bc.btype == "QRCODE") with
      _ | ⟨q0, qrest⟩
    · exact absurd hfq hq
    have hunf : handle_mixed_aztec_qr (b :: bs') filename =
        (if has_aztec_hint filename then
          (a0 :: arest) ++ (b :: bs').filter
            (fun bc => bc.btype != "AZTEC" && bc.btype != "QRCODE")
        else
          if (max_by_area q0 qrest).area ≤ (max_by_area a0 arest).area then
            (a0 :: arest) ++ (b :: bs').filter
              (fun bc => bc.btype != "AZTEC" && bc.btype != "QRCODE")
          else
            (q0 :: qrest) ++ (b :: bs').filter
              (fun bc => bc.btype != "AZTEC" && bc.btype != "QRCODE")) := by
      simp only [handle_mixed_aztec_qr]
      rw [hfa, hfq]
    constructor
    · intro hhint
      rw [hunf, if_pos hhint, hfa]
    · intro hhint
      constructor
      · intro harea
        rw [hunf, if_neg (by simp [hhint]), hfa]
        rw [if_pos]
        rw [max_by_area_bestArea, max_by_area_bestArea, ← hfa, ← hfq]
        exact harea
      · intro harea
        rw [hunf, if_neg (by simp [hhint]), hfq]
        rw [if_neg]
        rw [max_by_area_bestArea, max_by_area_bestArea, ← hfa, ← hfq]
        omega

/-- One Aztec and one QR candidate with equal areas, plus one Code128
bystander. -/
def c7aztec : RawBC :=
  mkBC "AZ" "AZTEC" "PKBarcodeFormatAztec" none 70 400 0 1 "standard"

def c7qr : RawBC :=
  mkBC "QR" "QRCODE" "PKBarcodeFormatQR" none 90 400 0 1 "standard"

def c7code : RawBC :=
  mkBC "CC" "CODE128" "PKBarcodeFormatCode128" none 90 50 0 1 "standard"

theorem C7_theorem_witness :
    (has_aztec_hint "scan.pdf" = true →
      handle_mixed_aztec_qr [c7aztec, c7qr, c7code] "scan.pdf" =
        [c7aztec, c7qr, c7code].filter (fun bc => bc.btype == "AZTEC") ++
        [c7aztec, c7qr, c7code].filter
          (fun bc => bc.btype != "AZTEC" && bc.btype != "QRCODE")) ∧
    (has_aztec_hint "scan.pdf" = false →
      (bestArea ([c7aztec, c7qr, c7code].filter
          (fun bc => bc.btype == "QRCODE")) ≤
          bestArea ([c7aztec, c7qr, c7code].filter
            (fun bc => bc.btype == "AZTEC")) →
        handle_mixed_aztec_qr [c7aztec, c7qr, c7code] "scan.pdf" =
          [c7aztec, c7qr, c7code].filter (fun bc => bc.btype == "AZTEC") ++
          [c7aztec, c7qr, c7code].filter
            (fun bc => bc.btype != "AZTEC" && bc.btype != "QRCODE")) ∧
      (bestArea ([c7aztec, c7qr, c7code].filter
          (fun bc => bc.btype == "AZTEC")) <
          bestArea ([c7aztec, c7qr, c7code].filter
            (fun bc => bc.btype == "QRCODE")) →
        handle_mixed_aztec_qr [c7aztec, c7qr, c7code] "scan.pdf" =
          [c7aztec, c7qr, c7code].filter (fun bc => bc.btype == "QRCODE") ++
          [c7aztec, c7qr, c7code].filter
            (fun bc => bc.btype != "AZTEC" && bc.btype != "QRCODE"))) :=
  C7_theorem [c7aztec, c7qr, c7code] "scan.pdf" (by decide) (by decide)

theorem mk_data (s : String) : String.mk s.data = s := rfl

theorem dropWhile_eq_self_of {p : Char → Bool} {l : List Char}
    (h : ∀ c ∈ l, p c = false) : l.dropWhile p = l := by
  cases l with
  | nil => rfl
  | cons c r =>
    rw [List.dropWhile_cons, if_neg (by simp [h c (by simp)])]

theorem stripEnds_eq_self {p : Char → Bool} {l : List Char}
    (h : ∀ c ∈ l, p c = false) : stripEnds p l = l := by
  unfold stripEnds
  rw [dropWhile_eq_self_of h,
    dropWhile_eq_self_of (fun c hc => h c (List.mem_reverse.mp hc)),
    List.reverse_reverse]

theorem collapseWS_eq_self : ∀ {l : List Char},
    (∀ c ∈ l, isPySpace c = false) → PassGenerator.collapseWS l = l := by
  intro l
  induction l with
  | nil => intro _; rfl
  | cons c t ih =>
    intro h
    cases t with
    | nil =>
      simp only [PassGenerator.collapseWS]
      rw [if_neg (by simp [h c (by simp)])]
    | cons d r =>
      simp only [PassGenerator.collapseWS]
      rw [if_neg (by simp [h c (by simp)])]
      rw [ih (fun x hx => h x (by simp [List.mem_cons.mp hx]))]

theorem replaceUnderscore_eq_self : ∀ {l : List Char},
    (∀ c ∈ l, c ≠ '_') → PassGenerator.replaceUnderscore l = l := by
  intro l
  induction l with
  | nil => intro _; rfl
  | cons c t ih =>
    intro h
    simp only [PassGenerator.replaceUnderscore, List.map_cons] at *
    rw [if_neg (h c (by simp)), ih (fun x hx => h x (by simp [hx]))]

theorem hex_not_space {c : Char} (h : isHexChar c = true) :
    isPySpace c = false := by
  by_contra hps
  rw [Bool.not_eq_false, isPySpace] at hps
  simp only [Bool.or_eq_true, decide_eq_true_eq] at hps
  rcases hps with ((((rfl | rfl) | rfl) | rfl) | rfl) | rfl <;>
    exact absurd h (by decide)

theorem hex_ne {c : Char} (h : isHexChar c = true) :
    c ≠ '_' ∧ c ≠ '\x22' ∧ c ≠ '-' := by
  refine ⟨?_, ?_, ?_⟩ <;> intro hc <;> subst hc <;> exact absurd h (by decide)

theorem fbClean_short (fb : Option String) :
    (PassGenerator.fbClean fb "Digital Pass").data.length ≤ 30 := by
  simp only [PassGenerator.fbClean]
  split
  · decide
  · simp

/-- Claim C9 (confirmed): a 32-character pure-hexadecimal extracted title
is never embedded as the pass title.  `PassGenerator._sanitize_title`
substitutes the fallback-name expression (organization name when given,
else the generic label), and the pydantic `PDFExtraction.sanitize_title`
substitutes the generic label; in both models the result differs from the
hex title. -/
theorem C9_theorem (t : String) (fb : Option String)
    (hlen : t.data.length = 32)
    (hhex : ∀ c ∈ t.data, isHexChar c = true) :
    PassGenerator.sanitize_title t fb =
      PassGenerator.fbClean fb "Digital Pass" ∧
    PassGenerator.sanitize_title t fb ≠ t ∧
    Models.sanitize_title_v2 t = "Digital Pass" ∧
    Models.sanitize_title_v2 t ≠ t := by
  have hns : ∀ c ∈ t.data, isPySpace c = false :=
    fun c hc => hex_not_space (hhex c hc)
  have htne : t.data ≠ [] := by
    intro h
    rw [h] at hlen
    simp at hlen
  have hblank : ¬ (t = "" ∨ stripEnds isPySpace t.data = []) := by
    rintro (he | he)
    · have hd : t.data = [] := by rw [he]
      exact htne hd
    · rw [stripEnds_eq_self hns] at he
      exact htne he
  have hclean : PassGenerator.cleanTitle t = t.data := by
    unfold PassGenerator.cleanTitle
    rw [replaceUnderscore_eq_self (fun c hc => (hex_ne (hhex c hc)).1),
      collapseWS_eq_self hns, stripEnds_eq_self hns,
      stripEnds_eq_self (fun c hc => by
        simpa using (hex_ne (hhex c hc)).2.1)]
  have hall : t.data.all isHexChar = true := List.all_eq_true.mpr hhex
  have h32 : PassGenerator.isHex32 t.data = true := by
    unfold PassGenerator.isHex32
    rw [hlen]
    simp [hall]
  have h1 : PassGenerator.sanitize_title t fb =
      PassGenerator.fbClean fb "Digital Pass" := by
    simp only [PassGenerator.sanitize_title]
    rw [if_neg hblank, hclean]
    simp [h32]
  have h2 : PassGenerator.sanitize_title t fb ≠ t := by
    rw [h1]
    intro he
    have hd := congrArg String.data he
    have hle := fbClean_short fb
    rw [hd] at hle
    omega
  have hfe : t.data.filter (fun c => decide (c ≠ '-')) = t.data :=
    List.filter_eq_self.mpr (fun c hc => by
      simpa using (hex_ne (hhex c hc)).2.2)
  have h3 : Models.sanitize_title_v2 t = "Digital Pass" := by
    simp only [Models.sanitize_title_v2]
    rw [stripEnds_eq_self hns]
    rw [if_neg (by
      intro he
      have hd := congrArg String.data he
      exact htne (by simpa using hd))]
    rw [if_pos (by
      rw [hfe]
      exact ⟨by omega, List.all_eq_true.mpr (fun c hc => by
        simp [hhex c hc])⟩)]
  have h4 : Models.sanitize_title_v2 t ≠ t := by
    rw [h3]
    intro he
    have hd := congrArg String.data he
    have h12 : ("Digital Pass" : String).data.length = 12 := by decide
    rw [hd] at h12
    omega
  exact ⟨h1, h2, h3, h4⟩

theorem C9_theorem_witness :
    PassGenerator.sanitize_title "aabbccddeeff00112233445566778899"
        (some "Stadium Events") =
      PassGenerator.fbClean (some "Stadium Events") "Digital Pass" ∧
    PassGenerator.sanitize_title "aabbccddeeff00112233445566778899"
        (some "Stadium Events") ≠ "aabbccddeeff00112233445566778899" ∧
    Models.sanitize_title_v2 "aabbccddeeff00112233445566778899" =
      "Digital Pass" ∧
    Models.sanitize_title_v2 "aabbccddeeff00112233445566778899" ≠
      "aabbccddeeff00112233445566778899" :=
  C9_theorem "aabbccddeeff00112233445566778899" (some "Stadium Events")
    (by decide) (by decide)

/-- Claim C8 (code_bug): both `_compute_expiry` implementations promise
"expire next day 03:00" in their own doc comments, but the code only adds
the day when 03:00 on the event day is not strictly after the parsed
datetime.  A date with no time parses to midnight, so the pass expires at
03:00 on the event day itself, not the day after; only events at or after
03:00 get the next-day expiry.  The no-date branch (exactly 90 days from
generation) behaves as claimed. -/
theorem C8_theorem :
    (∀ d : Nat, ∀ now : Models.NaiveDT,
      Models.compute_expiry (some ⟨d, 0⟩) now = ⟨d, 180⟩ ∧
        (⟨d, 180⟩ : Models.NaiveDT) ≠ ⟨d + 1, 180⟩) ∧
    (∀ d m : Nat, ∀ now : Models.NaiveDT,
      Models.compute_expiry (some ⟨d, 180 + m⟩) now = ⟨d + 1, 180⟩) ∧
    (∀ now : Models.NaiveDT,
      (Models.compute_expiry none now).total = now.total + 90 * 1440) := by
  refine ⟨?_, ?_, ?_⟩
  · intro d now
    constructor
    · simp only [Models.compute_expiry, Models.NaiveDT.total]
      rw [if_neg (by omega)]
    · intro h
      have := congrArg Models.NaiveDT.day h
      simp at this
  · intro d m now
    simp only [Models.compute_expiry, Models.NaiveDT.total]
    rw [if_pos (by omega)]
  · intro now
    simp only [Models.compute_expiry, Models.NaiveDT.addMinutes,
      Models.NaiveDT.total]
    omega

namespace Models

/-- Key uniqueness for every field array of one style section (the
property `_check_unique_keys` reports violations of). -/
def structNodup (st : PassStructure) : Prop :=
  (st.headerFields.map (fun f => f.key)).Nodup ∧
  (st.primaryFields.map (fun f => f.key)).Nodup ∧
  (st.secondaryFields.map (fun f => f.key)).Nodup ∧
  (st.auxiliaryFields.map (fun f => f.key)).Nodup ∧
  (st.backFields.map (fun f => f.key)).Nodup

instance (st : PassStructure) : Decidable (structNodup st) := by
  unfold structNodup
  infer_instance

theorem dupKeyGo_eq_nil {style field : String} :
    ∀ (fields : List PassField) (seen : List String),
      (fields.map (fun f => f.key)).Nodup →
      (∀ f ∈ fields, f.key ∉ seen) →
      dupKeyGo style field seen fields = [] := by
  intro fields
  induction fields with
  | nil => intro seen _ _; rfl
  | cons f rest ih =>
    intro seen hnd hns
    simp only [List.map_cons, List.nodup_cons] at hnd
    simp only [dupKeyGo]
    rw [if_neg (hns f (by simp)), List.nil_append]
    apply ih (f.key :: seen) hnd.2
    intro g hg
    simp only [List.mem_cons]
    rintro (hk | hk)
    · exact hnd.1 (hk ▸ List.mem_map_of_mem (fun f => f.key) hg)
    · exact hns g (by simp [hg]) hk

theorem structKeyErrors_eq_nil (name : String) (st : PassStructure)
    (h : structNodup st) : structKeyErrors name st = [] := by
  rcases h with ⟨h1, h2, h3, h4, h5⟩
  unfold structKeyErrors
  rw [dupKeyGo_eq_nil _ _ h1 (by simp),
    dupKeyGo_eq_nil _ _ h2 (by simp),
    dupKeyGo_eq_nil _ _ h3 (by simp),
    dupKeyGo_eq_nil _ _ h4 (by simp),
    dupKeyGo_eq_nil _ _ h5 (by simp)]
  rfl

theorem barcodesItemErrors_eq_nil :
    ∀ (l : List PKBarcode) (i : Nat),
      (∀ b ∈ l, b.format ∈ VALID_BARCODE_FORMATS ∧ b.message ≠ "") →
      barcodesItemErrors i l = [] := by
  intro l
  induction l with
  | nil => intro i _; rfl
  | cons b rest ih =>
    intro i h
    have hb := h b (by simp)
    simp only [barcodesItemErrors]
    rw [if_pos hb.1, if_neg hb.2, List.nil_append, List.nil_append]
    exact ih (i + 1) (fun x hx => h x (by simp [hx]))

theorem colorErr_eq_nil {name : String} {v : Option String}
    (h : ∀ c, v = some c → valid_rgb c = true) : colorErr name v = [] := by
  cases hv : v with
  | none => rfl
  | some c =>
    simp only [colorErr]
    rw [if_pos (h c hv)]

theorem dateErr_eq_nil {name : String} {v : Option String}
    (h : ∀ d, v = some d → valid_iso8601 d = true) : dateErr name v = [] := by
  cases hv : v with
  | none => rfl
  | some d =>
    simp only [dateErr]
    rw [if_pos (h d hv)]

end Models

/-- A pass with exactly one style section populated, all required
identifiers non-empty and `formatVersion = 1`, but with a duplicate field
key inside the populated section. -/
def c4dup : Models.PassJSONData :=
  { passTypeIdentifier := "pass.com.example.demo"
    serialNumber := "sn-0001"
    teamIdentifier := "TEAM123456"
    organizationName := "Example Org"
    description := "Example pass"
    eventTicket := some
      { headerFields := [{ key := "h", value := "x" },
                         { key := "h", value := "y" }] } }

/-- A pass with two style sections populated. -/
def c4two : Models.PassJSONData :=
  { passTypeIdentifier := "p"
    serialNumber := "s"
    teamIdentifier := "t"
    organizationName := "o"
    description := "d"
    eventTicket := some {}
    generic := some {} }

/-- A fully well-formed single-style pass. -/
def c4ok : Models.PassJSONData :=
  { passTypeIdentifier := "pass.com.example.demo"
    serialNumber := "sn-0002"
    teamIdentifier := "TEAM123456"
    organizationName := "Example Org"
    description := "Example pass"
    foregroundColor := some "rgb(255, 255, 255)"
    backgroundColor := some "rgb(10, 20, 30)"
    labelColor := some "rgb(0, 0, 0)"
    eventTicket := some
      { headerFields := [{ key := "h", value := "x" }]
        primaryFields := [{ key := "t", value := "Title" }] }
    barcode := some { format := "PKBarcodeFormatQR", message := "MSG" }
    barcodes := some [{ format := "PKBarcodeFormatQR", message := "MSG" }]
    expirationDate := some "2025-06-16T03:00:00Z" }

/-- Claim C4 is false as stated: `c4dup` has exactly one populated style
section and every required top-level identifier present and non-empty,
yet validation fails (duplicate field key in the populated section — the
validator checks more than the claim quantifies over). -/
theorem C4_counterexample :
    Models.styleCount c4dup = 1 ∧
    c4dup.formatVersion = 1 ∧
    c4dup.passTypeIdentifier ≠ "" ∧ c4dup.serialNumber ≠ "" ∧
    c4dup.teamIdentifier ≠ "" ∧ c4dup.organizationName ≠ "" ∧
    c4dup.description ≠ "" ∧
    (Models.validate_pass c4dup).1 = false := by
  decide

/-- Claim C4 (amended): more than one populated style section always fails
validation.  Exactly one populated style section with all required
identifiers non-empty yields `is_valid = true` only together with the
validator's remaining checks: `formatVersion = 1`, a valid
`boardingPass.transitType` when that style is the populated one, valid
`rgb(r,g,b)` colors, supported non-empty barcodes, unique field keys per
array, and ISO-8601 date fields. -/
theorem C4_theorem (p : Models.PassJSONData) :
    (2 ≤ Models.styleCount p → (Models.validate_pass p).1 = false) ∧
    (Models.styleCount p = 1 →
      p.passTypeIdentifier ≠ "" → p.serialNumber ≠ "" →
      p.teamIdentifier ≠ "" → p.organizationName ≠ "" →
      p.description ≠ "" → p.formatVersion = 1 →
      (∀ st, p.boardingPass = some st →
        ∃ tt, st.transitType = some tt ∧ tt ∈ Models.VALID_TRANSIT) →
      (∀ c, p.foregroundColor = some c → Models.valid_rgb c = true) →
      (∀ c, p.backgroundColor = some c → Models.valid_rgb c = true) →
      (∀ c, p.labelColor = some c → Models.valid_rgb c = true) →
      (∀ b, p.barcode = some b →
        b.format ∈ Models.VALID_BARCODE_FORMATS ∧ b.message ≠ "") →
      (∀ l, p.barcodes = some l → ∀ b ∈ l,
        b.format ∈ Models.VALID_BARCODE_FORMATS ∧ b.message ≠ "") →
      (∀ o ∈ [p.eventTicket, p.generic, p.boardingPass, p.coupon,
        p.storeCard], ∀ st, o = some st → Models.structNodup st) →
      (∀ d, p.expirationDate = some d → Models.valid_iso8601 d = true) →
      (∀ d, p.relevantDate = some d → Models.valid_iso8601 d = true) →
      (Models.validate_pass p).1 = true) := by
  constructor
  · intro h2
    have hse : Models.styleErrors p ≠ [] := by
      unfold Models.styleErrors
      rw [if_pos (by omega)]
      simp
    simp only [Models.validate_pass, decide_eq_false_iff_not]
    intro h
    simp only [List.append_eq_nil] at h
    exact hse (by tauto)
  · intro hstyle hpti hsn htid hon hdesc hfv htransit hfg hbg hlb hbc
      hbcs hkeys hexp hrel
    have e1 : Models.requiredErrors p = [] := by
      simp [Models.requiredErrors, hpti, hsn, htid, hon, hdesc]
    have e2 : Models.formatVersionErrors p = [] := by
      simp [Models.formatVersionErrors, hfv]
    have e3 : Models.styleErrors p = [] := by
      simp [Models.styleErrors, hstyle]
    have e4 : Models.transitErrors p = [] := by
      cases hbp : p.boardingPass with
      | none => simp [Models.transitErrors, hbp]
      | some st =>
        obtain ⟨tt, htt, hmem⟩ := htransit st hbp
        have httne : tt ≠ "" := by
          intro h
          subst h
          exact absurd hmem (by decide)
        simp [Models.transitErrors, hbp, htt, httne, hmem]
    have e5 : Models.colorErrors p = [] := by
      unfold Models.colorErrors
      rw [Models.colorErr_eq_nil hfg, Models.colorErr_eq_nil hbg,
        Models.colorErr_eq_nil hlb]
      rfl
    have e6 : Models.barcodeErrors p = [] := by
      cases hbo : p.barcode with
      | none =>
        cases hbo2 : p.barcodes with
        | none => simp [Models.barcodeErrors, hbo, hbo2]
        | some l =>
          simp [Models.barcodeErrors, hbo, hbo2,
            Models.barcodesItemErrors_eq_nil l 0 (hbcs l hbo2)]
      | some b =>
        have hb := hbc b hbo
        cases hbo2 : p.barcodes with
        | none => simp [Models.barcodeErrors, hbo, hbo2, hb.1, hb.2]
        | some l =>
          simp [Models.barcodeErrors, hbo, hbo2, hb.1, hb.2,
            Models.barcodesItemErrors_eq_nil l 0 (hbcs l hbo2)]
    have e7 : Models.keyErrors p = [] := by
      unfold Models.keyErrors
      have k1 : (match p.eventTicket with
          | some st => Models.structKeyErrors "eventTicket" st
          | none => []) = ([] : List String) := by
        cases ho : p.eventTicket with
        | none => rfl
        | some st =>
          exact Models.structKeyErrors_eq_nil _ st
            (hkeys p.eventTicket (by simp) st ho)
      have k2 : (match p.generic with
          | some st => Models.structKeyErrors "generic" st
          | none => []) = ([] : List String) := by
        cases ho : p.generic with
        | none => rfl
        | some st =>
          exact Models.structKeyErrors_eq_nil _ st
            (hkeys p.generic (by simp) st ho)
      have k3 : (match p.boardingPass with
          | some st => Models.structKeyErrors "boardingPass" st
          | none => []) = ([] : List String) := by
        cases ho : p.boardingPass with
        | none => rfl
        | some st =>
          exact Models.structKeyErrors_eq_nil _ st
            (hkeys p.boardingPass (by simp) st ho)
      have k4 : (match p.coupon with
          | some st => Models.structKeyErrors "coupon" st
          | none => []) = ([] : List String) := by
        cases ho : p.coupon with
        | none => rfl
        | some st =>
          exact Models.structKeyErrors_eq_nil _ st
            (hkeys p.coupon (by simp) st ho)
      have k5 : (match p.storeCard with
          | some st => Models.structKeyErrors "storeCard" st
          | none => []) = ([] : List String) := by
        cases ho : p.storeCard with
        | none => rfl
        | some st =>
          exact Models.structKeyErrors_eq_nil _ st
            (hkeys p.storeCard (by simp) st ho)
      rw [k1, k2, k3, k4, k5]
      rfl
    have e8 : Models.dateErrors p = [] := by
      unfold Models.dateErrors
      rw [Models.dateErr_eq_nil hexp, Models.dateErr_eq_nil hrel]
      rfl
    simp [Models.validate_pass, e1, e2, e3, e4, e5, e6, e7, e8]

theorem C4_theorem_witness :
    (2 ≤ Models.styleCount c4two ∧ (Models.validate_pass c4two).1 = false) ∧
    (Models.styleCount c4ok = 1 ∧ (Models.validate_pass c4ok).1 = true) :=
  ⟨⟨by decide, (C4_theorem c4two).1 (by decide)⟩,
   ⟨by decide,
    (C4_theorem c4ok).2 (by decide) (by decide) (by decide) (by decide)
      (by decide) (by decide) (by decide)
      (fun st h => Option.noConfusion h)
      (fun c h => by injection h with h2; rw [← h2]; decide)
      (fun c h => by injection h with h2; rw [← h2]; decide)
      (fun c h => by injection h with h2; rw [← h2]; decide)
      (fun b h => by injection h with h2; rw [← h2]; decide)
      (fun l h => by injection h with h2; rw [← h2]; decide)
      (by
        intro o ho st hst
        fin_cases ho
        · injection hst with h2
          rw [← h2]
          decide
        · exact Option.noConfusion hst
        · exact Option.noConfusion hst
        · exact Option.noConfusion hst
        · exact Option.noConfusion hst)
      (fun d h => by injection h with h2; rw [← h2]; decide)
      (fun d h => Option.noConfusion h)⟩⟩

/-- Claim C10 (confirmed): constructing a `PassJSON` fails unless exactly
one style section is populated, every successfully constructed value
satisfies the one-style invariant, `build_pass` always constructs
successfully (it populates exactly `eventTicket` or exactly `generic`),
and on any pass satisfying the invariant the validator's multiple-style
failure branch contributes nothing — its error list is exactly the other
sections' errors. -/
theorem C10_theorem :
    (∀ d : Models.PassJSONData, Models.styleCount d ≠ 1 →
      Models.mkPassJSON d = none) ∧
    (∀ d p : Models.PassJSONData, Models.mkPassJSON d = some p →
      Models.styleCount p = 1) ∧
    (∀ e bs bg fg lc i n pid tid ser exp sid,
      Models.mkPassJSON
          (Models.build_pass e bs bg fg lc i n pid tid ser exp sid) =
        some (Models.build_pass e bs bg fg lc i n pid tid ser exp sid)) ∧
    (∀ p : Models.PassJSONData, Models.styleCount p = 1 →
      (Models.validate_pass p).2 =
        Models.requiredErrors p ++ Models.formatVersionErrors p ++
        Models.transitErrors p ++ Models.colorErrors p ++
        Models.barcodeErrors p ++ Models.keyErrors p ++
        Models.dateErrors p) := by
  refine ⟨?_, ?_, ?_, ?_⟩
  · intro d h
    unfold Models.mkPassJSON
    rw [if_neg h]
  · intro d p h
    unfold Models.mkPassJSON at h
    by_cases hc : Models.styleCount d = 1
    · rw [if_pos hc] at h
      injection h with h2
      rw [← h2]
      exact hc
    · rw [if_neg hc] at h
      cases h
  · intro e bs bg fg lc i n pid tid ser exp sid
    have hone : Models.styleCount
        (Models.build_pass e bs bg fg lc i n pid tid ser exp sid) = 1 := by
      by_cases hu : e.document_type ∈ Models.EVENT_TICKET_TYPES
      · simp [Models.build_pass, Models.styleCount, hu, List.countP,
          List.countP.go]
      · simp [Models.build_pass, Models.styleCount, hu, List.countP,
          List.countP.go]
    unfold Models.mkPassJSON
    rw [if_pos hone]
  · intro p h
    have hs : Models.styleErrors p = [] := by
      simp [Models.styleErrors, h]
    simp [Models.validate_pass, hs]

theorem C10_theorem_witness :
    Models.mkPassJSON c4two = none ∧
    Models.styleCount c4ok = 1 ∧
    (Models.validate_pass c4ok).2 =
      Models.requiredErrors c4ok ++ Models.formatVersionErrors c4ok ++
      Models.transitErrors c4ok ++ Models.colorErrors c4ok ++
      Models.barcodeErrors c4ok ++ Models.keyErrors c4ok ++
      Models.dateErrors c4ok :=
  ⟨C10_theorem.1 c4two (by decide),
   C10_theorem.2.1 c4ok c4ok (by decide),
   C10_theorem.2.2.2 c4ok (by decide)⟩

/-- Claim C5 (confirmed): with no signing identity the signature engine
returns empty signature bytes, and packaging still completes: the
container holds every non-hidden bundle file including `pass.json`, a
`manifest.json` that maps each bundle file (dotfiles and the manifest
itself excluded) to its content hash, and no `signature` entry at all. -/
theorem C5_theorem (sign : List (Fin 256) → List (Fin 256))
    (hash : List (Fin 256) → String)
    (serialize : List (String × String) → List (Fin 256))
    (dir : List (String × List (Fin 256))) (pj : List (Fin 256))
    (hpass : ("pass.json", pj) ∈ dir)
    (hnoman : "manifest.json" ∉ dir.map Prod.fst)
    (hnosig : "signature" ∉ dir.map Prod.fst) :
    Signer.sign_manifest false sign
        (serialize (Signer.create_manifest hash dir)) = [] ∧
    Signer.package_pass false sign hash serialize dir =
      Signer.build_pkpass
        (dir ++ [("manifest.json",
          serialize (Signer.create_manifest hash dir))]) ∧
    ("pass.json", pj) ∈ Signer.package_pass false sign hash serialize dir ∧
    ("manifest.json", serialize (Signer.create_manifest hash dir)) ∈
      Signer.package_pass false sign hash serialize dir ∧
    (∀ f ∈ Signer.package_pass false sign hash serialize dir,
      f.1 ≠ "signature") ∧
    (∀ f ∈ dir, Signer.isHiddenName f.1 = false → f.1 ≠ "manifest.json" →
      (f.1, hash f.2) ∈ Signer.create_manifest hash dir) := by
  have hset : Signer.setFile dir "manifest.json"
      (serialize (Signer.create_manifest hash dir)) =
      dir ++ [("manifest.json",
        serialize (Signer.create_manifest hash dir))] := by
    unfold Signer.setFile
    rw [if_neg hnoman]
  have hpp : Signer.package_pass false sign hash serialize dir =
      Signer.build_pkpass (dir ++ [("manifest.json",
        serialize (Signer.create_manifest hash dir))]) := by
    simp only [Signer.package_pass]
    rw [if_neg (by simp), hset]
  refine ⟨rfl, hpp, ?_, ?_, ?_, ?_⟩
  · rw [hpp]
    unfold Signer.build_pkpass
    rw [List.mem_filter]
    exact ⟨by simp [hpass], rfl⟩
  · rw [hpp]
    unfold Signer.build_pkpass
    rw [List.mem_filter]
    exact ⟨by simp, rfl⟩
  · intro f hf
    rw [hpp] at hf
    unfold Signer.build_pkpass at hf
    rw [List.mem_filter, List.mem_append] at hf
    rcases hf with ⟨hmem | hmem, _⟩
    · intro he
      apply hnosig
      rw [← he]
      exact List.mem_map_of_mem Prod.fst hmem
    · rcases List.mem_singleton.mp hmem with rfl
      simp
  · intro f hf hhid hman
    unfold Signer.create_manifest
    have hmem : f ∈ (pysort Signer.nameLe dir).filter
        (fun g => !(Signer.isHiddenName g.1) && g.1 != "manifest.json") := by
      rw [List.mem_filter]
      refine ⟨mem_pysort.mpr hf, ?_⟩
      simp [hhid, hman]
    exact List.mem_map_of_mem (fun g => (g.1, hash g.2)) hmem

/-- A two-file bundle directory. -/
def c5dir : List (String × List (Fin 256)) :=
  [("pass.json", [123]), ("icon.png", [0, 1])]

theorem C5_theorem_witness :
    Signer.sign_manifest false (fun _ => [9, 9])
        ((fun _ => [77]) (Signer.create_manifest (fun _ => "h") c5dir)) = [] ∧
    Signer.package_pass false (fun _ => [9, 9]) (fun _ => "h")
        (fun _ => [77]) c5dir =
      Signer.build_pkpass (c5dir ++ [("manifest.json",
        (fun _ => [77]) (Signer.create_manifest (fun _ => "h") c5dir))]) ∧
    ("pass.json", ([123] : List (Fin 256))) ∈
      Signer.package_pass false (fun _ => [9, 9]) (fun _ => "h")
        (fun _ => [77]) c5dir ∧
    ("manifest.json",
        (fun _ => [77]) (Signer.create_manifest (fun _ => "h") c5dir)) ∈
      Signer.package_pass false (fun _ => [9, 9]) (fun _ => "h")
        (fun _ => [77]) c5dir ∧
    (∀ f ∈ Signer.package_pass false (fun _ => [9, 9]) (fun _ => "h")
        (fun _ => [77]) c5dir, f.1 ≠ "signature") ∧
    (∀ f ∈ c5dir, Signer.isHiddenName f.1 = false →
      f.1 ≠ "manifest.json" →
      (f.1, (fun _ => "h") f.2) ∈
        Signer.create_manifest (fun _ => "h") c5dir) :=
  C5_theorem (fun _ => [9, 9]) (fun _ => "h") (fun _ => [77]) c5dir [123]
    (by decide) (by decide) (by decide)

theorem extractStep_src {acc : List Pipeline.ExtractedBarcode × List String}
    {bc : RawBC}
    (h : ∀ eb ∈ acc.1, eb.source_type ∉ Pipeline.UNSUPPORTED_FORMATS) :
    ∀ eb ∈ (Pipeline.extractStep acc bc).1,
      eb.source_type ∉ Pipeline.UNSUPPORTED_FORMATS := by
  intro eb hmem
  simp only [Pipeline.extractStep] at hmem
  split at hmem
  · exact h eb hmem
  · rename_i hu
    split at hmem
    · exact h eb hmem
    · rcases List.mem_append.mp hmem with hm | hm
      · exact h eb hm
      · rcases List.mem_singleton.mp hm with rfl
        exact hu

theorem extractFold_src :
    ∀ (l : List RawBC) (acc : List Pipeline.ExtractedBarcode × List String),
      (∀ eb ∈ acc.1, eb.source_type ∉ Pipeline.UNSUPPORTED_FORMATS) →
      ∀ eb ∈ (l.foldl Pipeline.extractStep acc).1,
        eb.source_type ∉ Pipeline.UNSUPPORTED_FORMATS := by
  intro l
  induction l with
  | nil => intro acc h; exact h
  | cons bc t ih =>
    intro acc h
    exact ih (Pipeline.extractStep acc bc) (extractStep_src h)

theorem extractStep_warn_keep {acc : List Pipeline.ExtractedBarcode ×
    List String} {bc : RawBC}
    (h : acc.2 = [Pipeline.DATA_MATRIX_WARNING]) :
    (Pipeline.extractStep acc bc).2 = [Pipeline.DATA_MATRIX_WARNING] := by
  simp only [Pipeline.extractStep]
  split
  · simp [h]
  · split
    · exact h
    · exact h

theorem extractStep_warn_new {acc : List Pipeline.ExtractedBarcode ×
    List String} {bc : RawBC} (h : acc.2 = [])
    (hu : upperStr bc.btype ∈ Pipeline.UNSUPPORTED_FORMATS) :
    (Pipeline.extractStep acc bc).2 = [Pipeline.DATA_MATRIX_WARNING] := by
  simp only [Pipeline.extractStep]
  rw [if_pos hu]
  simp [h]

theorem extractStep_warn_none {acc : List Pipeline.ExtractedBarcode ×
    List String} {bc : RawBC} (h : acc.2 = [])
    (hu : upperStr bc.btype ∉ Pipeline.UNSUPPORTED_FORMATS) :
    (Pipeline.extractStep acc bc).2 = [] := by
  simp only [Pipeline.extractStep]
  rw [if_neg hu]
  split
  · exact h
  · exact h

theorem foldl_warn_sticky :
    ∀ (l : List RawBC) (acc : List Pipeline.ExtractedBarcode × List String),
      acc.2 = [Pipeline.DATA_MATRIX_WARNING] →
      (l.foldl Pipeline.extractStep acc).2 =
        [Pipeline.DATA_MATRIX_WARNING] := by
  intro l
  induction l with
  | nil => intro acc h; exact h
  | cons bc t ih =>
    intro acc h
    exact ih (Pipeline.extractStep acc bc) (extractStep_warn_keep h)

theorem foldl_warn :
    ∀ (l : List RawBC) (acc : List Pipeline.ExtractedBarcode × List String),
      acc.2 = [] →
      ((∃ bc ∈ l, upperStr bc.btype ∈ Pipeline.UNSUPPORTED_FORMATS) →
        (l.foldl Pipeline.extractStep acc).2 =
          [Pipeline.DATA_MATRIX_WARNING]) ∧
      ((∀ bc ∈ l, upperStr bc.btype ∉ Pipeline.UNSUPPORTED_FORMATS) →
        (l.foldl Pipeline.extractStep acc).2 = []) := by
  intro l
  induction l with
  | nil =>
    intro acc h
    exact ⟨fun hex => by simp at hex, fun _ => h⟩
  | cons bc t ih =>
    intro acc h
    by_cases hu : upperStr bc.btype ∈ Pipeline.UNSUPPORTED_FORMATS
    · have hstep := extractStep_warn_new h hu
      constructor
      · intro _
        exact foldl_warn_sticky t _ hstep
      · intro hall
        exact absurd hu (hall bc (by simp))
    · have hstep := extractStep_warn_none h hu
      constructor
      · intro hex
        rcases hex with ⟨b, hb, hbu⟩
        rcases List.mem_cons.mp hb with rfl | hb
        · exact absurd hbu hu
        · exact (ih _ hstep).1 ⟨b, hb, hbu⟩
      · intro hall
        exact (ih _ hstep).2 (fun b hb => hall b (by simp [hb]))

theorem foldl_all_unsup :
    ∀ (l : List RawBC) (acc : List Pipeline.ExtractedBarcode × List String),
      (∀ bc ∈ l, upperStr bc.btype ∈ Pipeline.UNSUPPORTED_FORMATS) →
      (l.foldl Pipeline.extractStep acc).1 = acc.1 := by
  intro l
  induction l with
  | nil => intro acc _; rfl
  | cons bc t ih =>
    intro acc hall
    have hstep : (Pipeline.extractStep acc bc).1 = acc.1 := by
      simp only [Pipeline.extractStep]
      rw [if_pos (hall bc (by simp))]
    rw [List.foldl_cons, ih _ (fun b hb => hall b (by simp [hb])), hstep]

/-- Claim C2 (confirmed): unsupported-symbology (Data Matrix) candidates
never survive into the barcode set used for pass embedding; exactly one
warning mentioning Data Matrix is emitted no matter how many such
candidates were detected; and when every candidate is unsupported the
ticket is still built, with `barcode`/`barcodes` entirely absent.  The v1
`create_enhanced_pass` fragment behaves the same way for a Data Matrix
primary barcode. -/
theorem C2_theorem (raw : List RawBC)
    (hex : ∃ bc ∈ raw,
      upperStr bc.btype ∈ Pipeline.UNSUPPORTED_FORMATS) :
    (∀ eb ∈ (Pipeline.extract_barcodes raw).1,
      eb.source_type ∉ Pipeline.UNSUPPORTED_FORMATS) ∧
    (Pipeline.extract_barcodes raw).2 = [Pipeline.DATA_MATRIX_WARNING] ∧
    ((∀ bc ∈ raw, upperStr bc.btype ∈ Pipeline.UNSUPPORTED_FORMATS) →
      (Pipeline.extract_barcodes raw).1 = [] ∧
      (∀ e bg fg lc i n pid tid ser exp sid,
        (Models.build_pass e (Pipeline.extract_barcodes raw).1 bg fg lc i n
          pid tid ser exp sid).barcode = none ∧
        (Models.build_pass e (Pipeline.extract_barcodes raw).1 bg fg lc i n
          pid tid ser exp sid).barcodes = none)) ∧
    (∀ pb : RawBC, ∀ fdata : Option String, ∀ w : List String,
      pb.btype = "DATAMATRIX" →
      (PassGenerator.v1_attach_barcode (some pb) fdata w).1 = none ∧
      (PassGenerator.v1_attach_barcode (some pb) fdata w).2 =
        w ++ [PassGenerator.V1_DM_WARNING]) := by
  refine ⟨?_, ?_, ?_, ?_⟩
  · exact extractFold_src (pysort Pipeline.pageLe raw) ([], [])
      (by intro eb h; simp at h)
  · rcases hex with ⟨b, hb, hbu⟩
    exact (foldl_warn (pysort Pipeline.pageLe raw) ([], []) rfl).1
      ⟨b, mem_pysort.mpr hb, hbu⟩
  · intro hall
    have h1 : (Pipeline.extract_barcodes raw).1 = [] :=
      foldl_all_unsup (pysort Pipeline.pageLe raw) ([], [])
        (fun b hb => hall b (mem_pysort.mp hb))
    refine ⟨h1, ?_⟩
    intro e bg fg lc i n pid tid ser exp sid
    rw [h1]
    exact ⟨rfl, rfl⟩
  · intro pb fdata w h
    simp only [PassGenerator.v1_attach_barcode]
    rw [if_pos h]
    exact ⟨rfl, rfl⟩

/-- Two Data Matrix candidates (same symbology, different payloads) and
one QR candidate. -/
def c2dm1 : RawBC :=
  mkBC "DM1" "DATAMATRIX" "PKBarcodeFormatQR" (some [1, 2]) 70 100 0 1
    "standard"

def c2dm2 : RawBC :=
  mkBC "DM2" "DATAMATRIX" "PKBarcodeFormatQR" (some [3, 4]) 70 100 0 2
    "standard"

def c2qr : RawBC :=
  mkBC "QR" "QRCODE" "PKBarcodeFormatQR" (some [65, 66]) 90 400 0 1
    "standard"

theorem C2_theorem_witness :
    (∀ eb ∈ (Pipeline.extract_barcodes [c2dm1, c2qr, c2dm2]).1,
      eb.source_type ∉ Pipeline.UNSUPPORTED_FORMATS) ∧
    (Pipeline.extract_barcodes [c2dm1, c2qr, c2dm2]).2 =
      [Pipeline.DATA_MATRIX_WARNING] ∧
    ((∀ bc ∈ [c2dm1, c2qr, c2dm2],
        upperStr bc.btype ∈ Pipeline.UNSUPPORTED_FORMATS) →
      (Pipeline.extract_barcodes [c2dm1, c2qr, c2dm2]).1 = [] ∧
      (∀ e bg fg lc i n pid tid ser exp sid,
        (Models.build_pass e
          (Pipeline.extract_barcodes [c2dm1, c2qr, c2dm2]).1 bg fg lc i n
          pid tid ser exp sid).barcode = none ∧
        (Models.build_pass e
          (Pipeline.extract_barcodes [c2dm1, c2qr, c2dm2]).1 bg fg lc i n
          pid tid ser exp sid).barcodes = none)) ∧
    (∀ pb : RawBC, ∀ fdata : Option String, ∀ w : List String,
      pb.btype = "DATAMATRIX" →
      (PassGenerator.v1_attach_barcode (some pb) fdata w).1 = none ∧
      (PassGenerator.v1_attach_barcode (some pb) fdata w).2 =
        w ++ [PassGenerator.V1_DM_WARNING]) :=
  C2_theorem [c2dm1, c2qr, c2dm2] (by decide)

/-- The payload group of one dedup key. -/
@[reducible]
def groupOf (bs : List RawBC) (k : String) : List RawBC :=
  bs.filter (fun bc => payloadKey bc == k)

theorem mk_inj {a b : List Char} (h : String.mk a = String.mk b) : a = b :=
  congrArg String.data h

theorem payloadKey_eq_iff {bc : RawBC} {p : List (Fin 256)}
    (h : bc.raw_bytes.isSome = true) :
    payloadKey bc = String.mk (hexOfBytes p) ↔ bc.raw_bytes = some p := by
  cases hb : bc.raw_bytes with
  | none => rw [hb] at h; simp at h
  | some q =>
    simp only [payloadKey, hb]
    constructor
    · intro he
      rw [hexOfBytes_inj (mk_inj he)]
    · intro he
      injection he with he2
      rw [he2]

theorem consolidate_group_base {g : List RawBC} {s : ConsolidatedBC}
    (h : consolidate_group g = some s) : s.base ∈ g := by
  unfold consolidate_group at h
  cases hs : pysort confDesc g with
  | nil => rw [hs] at h; cases h
  | cons best rest =>
    rw [hs] at h
    injection h with h2
    have hbm : best ∈ pysort confDesc g := by rw [hs]; simp
    rw [← h2]
    exact mem_pysort.mp hbm

theorem consolidate_group_spec (g : List RawBC) (hg : g ≠ []) :
    ∃ r, consolidate_group g = some r ∧ r.base ∈ g ∧
      r.detection_count = g.length ∧
      r.pages_found.Nodup ∧
      (∀ q, q ∈ r.pages_found ↔ ∃ bc ∈ g, bc.page = q) := by
  cases hs : pysort confDesc g with
  | nil =>
    have hl := length_pysort confDesc g
    rw [hs] at hl
    cases g with
    | nil => exact absurd rfl hg
    | cons x t => simp at hl
  | cons best rest =>
    refine ⟨{ base := best
              detection_count := g.length
              methods_used := firstKeys (g.map (fun bc => bc.method))
              pages_found := pysort (fun a b => decide (a ≤ b))
                (firstKeys (g.map (fun bc => bc.page))) }, ?_, ?_, rfl, ?_, ?_⟩
    · unfold consolidate_group
      rw [hs]
    · have hbm : best ∈ pysort confDesc g := by rw [hs]; simp
      exact mem_pysort.mp hbm
    · exact ((pysort_perm (fun a b => decide (a ≤ b)) _).nodup_iff).mpr
        (firstKeys_nodup _)
    · intro q
      rw [mem_pysort, firstKeys_mem, List.mem_map]

theorem filterMap_filter_single {F : String → Option ConsolidatedBC}
    {Q : ConsolidatedBC → Bool} :
    ∀ (keys : List String), keys.Nodup → ∀ kp ∈ keys, ∀ r,
      F kp = some r → Q r = true →
      (∀ k ∈ keys, k ≠ kp → ∀ s, F k = some s → Q s = false) →
      (keys.filterMap F).filter Q = [r] := by
  intro keys
  induction keys with
  | nil =>
    intro _ kp h
    simp at h
  | cons k rest ih =>
    intro hnd kp hkp r hF hQ hother
    have hndr := (List.nodup_cons.mp hnd).2
    have hknr := (List.nodup_cons.mp hnd).1
    rcases List.mem_cons.mp hkp with rfl | hkp'
    · rw [List.filterMap_cons_some hF,
        List.filter_cons_of_pos hQ]
      have hnil : (rest.filterMap F).filter Q = [] := by
        rw [List.filter_eq_nil_iff]
        intro s hs
        rcases List.mem_filterMap.mp hs with ⟨k2, hk2, hFk2⟩
        have hk2ne : k2 ≠ kp := fun he => hknr (he ▸ hk2)
        rw [hother k2 (by simp [hk2]) hk2ne s hFk2]
        simp
      rw [hnil]
    · have hkne : k ≠ kp := fun he => hknr (he ▸ hkp')
      cases hFk : F k with
      | none =>
        rw [List.filterMap_cons_none hFk]
        exact ih hndr kp hkp' r hF hQ
          (fun k2 hk2 => hother k2 (by simp [hk2]))
      | some s =>
        have hQs : Q s = false := hother k (by simp) hkne s hFk
        rw [List.filterMap_cons_some hFk,
          List.filter_cons_of_neg (by simp [hQs])]
        exact ih hndr kp hkp' r hF hQ
          (fun k2 hk2 => hother k2 (by simp [hk2]))

/-- Claim C1 (confirmed): for any extraction run's candidate list (each
candidate carrying its raw payload bytes, as the detector always attaches
them) and any payload occurring N ≥ 1 times, deduplication outputs exactly
one consolidated record for that payload, with `detection_count = N` and
`pages_found` equal (as a duplicate-free set) to the set of pages those
candidates came from. -/
theorem C1_theorem (bs : List RawBC) (p : List (Fin 256))
    (hall : ∀ bc ∈ bs, bc.raw_bytes.isSome = true)
    (hn : bs.filter (fun bc => bc.raw_bytes == some p) ≠ []) :
    ∃ r, (deduplicate_barcodes bs).filter
        (fun rr => rr.base.raw_bytes == some p) = [r] ∧
      r.base.raw_bytes = some p ∧
      r.detection_count =
        (bs.filter (fun bc => bc.raw_bytes == some p)).length ∧
      r.pages_found.Nodup ∧
      (∀ q, q ∈ r.pages_found ↔
        ∃ bc ∈ bs, bc.raw_bytes = some p ∧ bc.page = q) := by
  have hbsne : bs ≠ [] := by
    intro h
    rw [h] at hn
    simp at hn
  have hd : deduplicate_barcodes bs =
      pysort recordConfDesc ((firstKeys (bs.map payloadKey)).filterMap
        (fun k => consolidate_group (groupOf bs k))) := by
    cases bs with
    | nil => exact absurd rfl hbsne
    | cons b t => rfl
  have hkey : ∀ bc ∈ bs,
      (payloadKey bc == String.mk (hexOfBytes p)) =
        (bc.raw_bytes == some p) := by
    intro bc hbc
    rw [Bool.eq_iff_iff, beq_iff_eq, beq_iff_eq]
    exact payloadKey_eq_iff (hall bc hbc)
  have hfeq : groupOf bs (String.mk (hexOfBytes p)) =
      bs.filter (fun bc => bc.raw_bytes == some p) :=
    List.filter_congr hkey
  have hgne : groupOf bs (String.mk (hexOfBytes p)) ≠ [] := by
    rw [hfeq]
    exact hn
  obtain ⟨r, hr, hrbase, hrcount, hrnodup, hrpages⟩ :=
    consolidate_group_spec _ hgne
  obtain ⟨b0, hb0mem, hb0p⟩ : ∃ b ∈ bs, b.raw_bytes = some p := by
    cases hfl : bs.filter (fun bc => bc.raw_bytes == some p) with
    | nil => exact absurd hfl hn
    | cons x t =>
      have hx : x ∈ bs.filter (fun bc => bc.raw_bytes == some p) := by
        rw [hfl]
        simp
      have hm := List.mem_filter.mp hx
      exact ⟨x, hm.1, by simpa using hm.2⟩
  have hkpmem : String.mk (hexOfBytes p) ∈
      firstKeys (bs.map payloadKey) := by
    rw [firstKeys_mem]
    exact List.mem_map.mpr ⟨b0, hb0mem,
      (payloadKey_eq_iff (hall b0 hb0mem)).mpr hb0p⟩
  have hrmem := List.mem_filter.mp hrbase
  have hrp : r.base.raw_bytes = some p := by
    have h3 : payloadKey r.base = String.mk (hexOfBytes p) := by
      simpa using hrmem.2
    exact (payloadKey_eq_iff (hall _ hrmem.1)).mp h3
  have hmain : (((firstKeys (bs.map payloadKey)).filterMap
      (fun k => consolidate_group (groupOf bs k))).filter
      (fun rr => rr.base.raw_bytes == some p)) = [r] := by
    apply filterMap_filter_single _ (firstKeys_nodup _)
      (String.mk (hexOfBytes p)) hkpmem r hr (by simp [hrp])
    intro k hk hkne s hcs
    have hsmem := List.mem_filter.mp (consolidate_group_base hcs)
    have hpayk : payloadKey s.base = k := by simpa using hsmem.2
    have hne2 : s.base.raw_bytes ≠ some p := by
      intro he
      apply hkne
      rw [← hpayk]
      exact (payloadKey_eq_iff (hall _ hsmem.1)).mpr he
    simpa using hne2
  refine ⟨r, ?_, hrp, ?_, hrnodup, ?_⟩
  · rw [hd]
    have hperm := (pysort_perm recordConfDesc
      ((firstKeys (bs.map payloadKey)).filterMap
        (fun k => consolidate_group (groupOf bs k)))).filter
      (fun rr => rr.base.raw_bytes == some p)
    rw [hmain] at hperm
    exact List.perm_singleton.mp hperm
  · rw [hrcount, hfeq]
  · intro q
    rw [hrpages q]
    constructor
    · rintro ⟨bc, hbc, rfl⟩
      have hm := List.mem_filter.mp hbc
      have hbp : bc.raw_bytes = some p :=
        (payloadKey_eq_iff (hall _ hm.1)).mp (by simpa using hm.2)
      exact ⟨bc, hm.1, hbp, rfl⟩
    · rintro ⟨bc, hbc, hbp, rfl⟩
      refine ⟨bc, ?_, rfl⟩
      rw [hfeq]
      exact List.mem_filter.mpr ⟨hbc, by simp [hbp]⟩

/-- The two-page scenario: the same payload detected once per page, plus
one different payload. -/
def c1page1 : RawBC :=
  mkBC "TK" "AZTEC" "PKBarcodeFormatAztec" (some [7, 7]) 80 400 0 1
    "pymupdf"

def c1page2 : RawBC :=
  mkBC "TK" "AZTEC" "PKBarcodeFormatAztec" (some [7, 7]) 80 380 2 2
    "pymupdf"

def c1other : RawBC :=
  mkBC "OT" "QRCODE" "PKBarcodeFormatQR" (some [9]) 90 100 0 1 "standard"

theorem C1_theorem_witness :
    ∃ r, (deduplicate_barcodes [c1page1, c1other, c1page2]).filter
        (fun rr => rr.base.raw_bytes == some [7, 7]) = [r] ∧
      r.base.raw_bytes = some [7, 7] ∧
      r.detection_count =
        ([c1page1, c1other, c1page2].filter
          (fun bc => bc.raw_bytes == some [7, 7])).length ∧
      r.pages_found.Nodup ∧
      (∀ q, q ∈ r.pages_found ↔
        ∃ bc ∈ [c1page1, c1other, c1page2],
          bc.raw_bytes = some [7, 7] ∧ bc.page = q) :=
  C1_theorem [c1page1, c1other, c1page2] [7, 7] (by decide) (by decide)

end Add2Wallet
